import Mathlib

/-!
Verification development for the TamengAI detection and analysis pipeline.

The TypeScript sources are shallowly embedded: JavaScript strings become
`List Char`, real-valued confidences become `ℚ`, and the pipeline's
wall-clock race is modelled by an explicit outcome value (see `PipeOutcome`).
Wall-clock durations (`processingTimeMs` and stage durations) are modelled
as `0`; no property below depends on them.
-/

namespace Tameng

/-- Convert a Lean string literal into the character-list representation used
for JavaScript strings throughout this development. -/
def str (s : String) : List Char := s.toList

/-- JavaScript `String.prototype.toLowerCase`, modelled characterwise. -/
def lower (s : List Char) : List Char := s.map Char.toLower

/-- JavaScript `String.prototype.trim`: strip leading and trailing whitespace. -/
def jsTrim (s : List Char) : List Char :=
  ((s.dropWhile Char.isWhitespace).reverse.dropWhile Char.isWhitespace).reverse

/-- A keyword is non-blank when it contains at least one non-whitespace
character (its JavaScript `trim` is a nonempty string). -/
def nonBlank (s : List Char) : Bool := decide (jsTrim s ≠ [])

/-- Rule actions (`src/types/detection.ts`): `BLOCK | FLAG | LOG`. -/
inductive RuleAction where
  | BLOCK
  | FLAG
  | LOG
deriving DecidableEq, Repr

/-- Rule applicability languages (`src/types/common.ts`): `ID | EN | BOTH`. -/
inductive Language where
  | ID
  | EN
  | BOTH
deriving DecidableEq, Repr

/-- Detected text language of an analysis context: `ID | EN | MIXED`. -/
inductive CtxLanguage where
  | ID
  | EN
  | MIXED
deriving DecidableEq, Repr

/-- Recommended action of a detection result: `PASS | BLOCK | FLAG`. -/
inductive RecommendedAction where
  | PASS
  | BLOCK
  | FLAG
deriving DecidableEq, Repr

/-- `RuleMatch` (`src/types/common.ts`): one located occurrence of a rule's
pattern in the analyzed text. -/
structure RuleMatch where
  ruleId : List Char
  ruleName : List Char
  matchedText : List Char
  position : Nat
  confidence : ℚ
deriving DecidableEq, Repr, Inhabited

/-- `DetectionRule` (`src/types/detection.ts`). The `type` and `severity`
fields are kept as strings, as they are at the JavaScript runtime boundary
where `validateRule` must reject invalid values and the matcher's `switch`
has a live `default` branch. -/
structure DetectionRule where
  id : List Char
  name : List Char
  type : List Char
  pattern : List Char
  action : RuleAction
  severity : List Char
  language : Language
  enabled : Bool
  version : Nat
deriving DecidableEq, Repr

/-- `DetectionResult` (`src/types/detection.ts`). The source field `matches`
is called `matchList` here because `matches` is a reserved word in Lean;
`processingTimeMs` is wall-clock time in the source and is modelled as `0`. -/
structure DetectionResult where
  isHarmful : Bool
  matchList : List RuleMatch
  recommendedAction : RecommendedAction
  confidence : ℚ
  processingTimeMs : Nat
deriving DecidableEq, Repr

/-! ## Fuzzy matching subsystem (`src/detection/indonesian/fuzzy-matcher.ts`)

`levenshteinDistance` in the source fills the classic dynamic-programming
matrix with `matrix[i][j] = d(a[0..i), b[0..j))`; the recursive function
below is that recurrence on prefixes, with the same branch order
(deletion, insertion, substitution) and the same unit costs, including the
`a[i-1] === b[j-1] ? 0 : 1` substitution cost. -/

/-- Classic edit distance over insert/delete/substitute, unit cost each. -/
def levenshteinDistance : List Char → List Char → Nat
  | [], b => b.length
  | a, [] => a.length
  | x :: xs, y :: ys =>
      min (levenshteinDistance xs (y :: ys) + 1)
        (min (levenshteinDistance (x :: xs) ys + 1)
          (levenshteinDistance xs ys + (if x = y then 0 else 1)))
termination_by a b => a.length + b.length
decreasing_by all_goals simp +arith

/-- `similarityRatio` in the source: `1 - distance/max(len a, len b)`,
defined as `1` when both strings are empty; the distance is taken on the
lowercased strings. -/
def similarity (a b : List Char) : ℚ :=
  let maxLen := max a.length b.length
  if maxLen = 0 then 1
  else 1 - (levenshteinDistance (lower a) (lower b) : ℚ) / (maxLen : ℚ)

@[simp] theorem levenshteinDistance_nil_left (b : List Char) :
    levenshteinDistance [] b = b.length := by
  cases b <;> simp [levenshteinDistance]

@[simp] theorem levenshteinDistance_nil_right (a : List Char) :
    levenshteinDistance a [] = a.length := by
  cases a <;> simp [levenshteinDistance]

theorem levenshteinDistance_cons_cons (x y : Char) (xs ys : List Char) :
    levenshteinDistance (x :: xs) (y :: ys) =
      min (levenshteinDistance xs (y :: ys) + 1)
        (min (levenshteinDistance (x :: xs) ys + 1)
          (levenshteinDistance xs ys + (if x = y then 0 else 1))) := by
  rw [levenshteinDistance]

/-- The distance from a string to itself is zero. -/
theorem levenshteinDistance_self (a : List Char) : levenshteinDistance a a = 0 := by
  induction a with
  | nil => simp
  | cons x xs ih =>
      rw [levenshteinDistance_cons_cons]
      simp [ih]

/-- Deleting the head of the left string costs at most one. -/
theorem levenshteinDistance_le_delete (x : Char) (xs b : List Char) :
    levenshteinDistance (x :: xs) b ≤ levenshteinDistance xs b + 1 := by
  cases b with
  | nil => simp
  | cons y ys =>
      rw [levenshteinDistance_cons_cons]
      exact min_le_left _ _

/-- Inserting the head of the right string costs at most one. -/
theorem levenshteinDistance_le_insert (a : List Char) (y : Char) (ys : List Char) :
    levenshteinDistance a (y :: ys) ≤ levenshteinDistance a ys + 1 := by
  cases a with
  | nil => simp
  | cons x xs =>
      rw [levenshteinDistance_cons_cons]
      exact le_trans (min_le_right _ _) (min_le_left _ _)

/-- The substitution branch bounds the distance between two cons cells. -/
theorem levenshteinDistance_le_subst (x : Char) (xs : List Char) (z : Char) (cs : List Char) :
    levenshteinDistance (x :: xs) (z :: cs) ≤
      levenshteinDistance xs cs + (if x = z then 0 else 1) := by
  rw [levenshteinDistance_cons_cons]
  exact le_trans (min_le_right _ _) (min_le_right _ _)

/-- The edit distance is bounded by deleting everything and inserting everything. -/
theorem levenshteinDistance_le_lengths (a c : List Char) :
    levenshteinDistance a c ≤ a.length + c.length := by
  induction a generalizing c with
  | nil => simp
  | cons x xs ih =>
      cases c with
      | nil => simp
      | cons z cs =>
          have h := levenshteinDistance_le_subst x xs z cs
          have h2 := ih cs
          have : (if x = z then 0 else 1) ≤ 1 := by split <;> omega
          simp only [List.length_cons]
          omega

/-- The edit distance is at least the length deficit of the right string,
stated with an explicit measure for strong induction. -/
theorem length_le_levenshteinDistance_aux :
    ∀ n b c, b.length + c.length = n →
      c.length ≤ b.length + levenshteinDistance b c := by
  intro n
  induction n using Nat.strong_induction_on with
  | _ n ih =>
    intro b c hlen
    cases b with
    | nil => simp
    | cons y bs =>
        cases c with
        | nil => simp
        | cons z cs =>
            rw [levenshteinDistance_cons_cons]
            have h1 : (z :: cs).length ≤ bs.length + levenshteinDistance bs (z :: cs) :=
              ih (bs.length + (z :: cs).length)
                (by simp only [List.length_cons] at hlen ⊢; omega) bs (z :: cs) rfl
            have h2 : cs.length ≤ bs.length + levenshteinDistance bs cs :=
              ih (bs.length + cs.length)
                (by simp only [List.length_cons] at hlen ⊢; omega) bs cs rfl
            have h3 : cs.length ≤ (y :: bs).length + levenshteinDistance (y :: bs) cs :=
              ih ((y :: bs).length + cs.length)
                (by simp only [List.length_cons] at hlen ⊢; omega) (y :: bs) cs rfl
            have hc : (if y = z then 0 else 1) ≤ 1 := by split <;> omega
            simp only [List.length_cons] at h1 h2 h3 ⊢
            omega

/-- The edit distance is at least the length deficit of the right string. -/
theorem length_le_levenshteinDistance (b c : List Char) :
    c.length ≤ b.length + levenshteinDistance b c :=
  length_le_levenshteinDistance_aux (b.length + c.length) b c rfl

/-- The edit distance is symmetric in its arguments. -/
theorem levenshteinDistance_comm (a b : List Char) :
    levenshteinDistance a b = levenshteinDistance b a := by
  induction a generalizing b with
  | nil => simp
  | cons x xs iha =>
      induction b with
      | nil => simp
      | cons y ys ihb =>
          rw [levenshteinDistance_cons_cons, levenshteinDistance_cons_cons]
          rw [iha (y :: ys), ihb, iha ys]
          have hc : (if x = y then 0 else 1) = (if y = x then 0 else 1) := by
            simp [eq_comm]
          rw [hc]
          omega

/-- The edit distance satisfies the triangle inequality. -/
theorem levenshteinDistance_triangle :
    ∀ n a b c, a.length + b.length + c.length = n →
      levenshteinDistance a c ≤ levenshteinDistance a b + levenshteinDistance b c := by
  intro n
  induction n using Nat.strong_induction_on with
  | _ n ih =>
    intro a b c hlen
    rcases b with _ | ⟨y, bs⟩
    · have h1 := levenshteinDistance_le_lengths a c
      have h2 := length_le_levenshteinDistance a c
      simp only [levenshteinDistance_nil_left, levenshteinDistance_nil_right]
      exact h1
    rcases a with _ | ⟨x, as⟩
    · have h1 : c.length ≤ (y :: bs).length + levenshteinDistance (y :: bs) c :=
        length_le_levenshteinDistance (y :: bs) c
      simp only [levenshteinDistance_nil_left, List.length_cons] at h1 ⊢
      omega
    rcases c with _ | ⟨z, cs⟩
    · have h1 : (x :: as).length ≤ (y :: bs).length + levenshteinDistance (y :: bs) (x :: as) :=
        length_le_levenshteinDistance (y :: bs) (x :: as)
      rw [levenshteinDistance_comm (y :: bs) (x :: as)] at h1
      simp only [levenshteinDistance_nil_right, List.length_cons] at h1 ⊢
      omega
    -- main case: all three strings are nonempty
    have tdel : levenshteinDistance (x :: as) (z :: cs) ≤
        levenshteinDistance as (z :: cs) + 1 := levenshteinDistance_le_delete x as (z :: cs)
    have tins : levenshteinDistance (x :: as) (z :: cs) ≤
        levenshteinDistance (x :: as) cs + 1 := levenshteinDistance_le_insert (x :: as) z cs
    have tsub := levenshteinDistance_le_subst x as z cs
    have hABcases : levenshteinDistance (x :: as) (y :: bs) = levenshteinDistance as (y :: bs) + 1
        ∨ levenshteinDistance (x :: as) (y :: bs) = levenshteinDistance (x :: as) bs + 1
        ∨ levenshteinDistance (x :: as) (y :: bs) =
            levenshteinDistance as bs + (if x = y then 0 else 1) := by
      rw [levenshteinDistance_cons_cons]
      rcases min_choice (levenshteinDistance as (y :: bs) + 1)
          (min (levenshteinDistance (x :: as) bs + 1)
            (levenshteinDistance as bs + (if x = y then 0 else 1))) with h | h
      · exact Or.inl h
      · rcases min_choice (levenshteinDistance (x :: as) bs + 1)
            (levenshteinDistance as bs + (if x = y then 0 else 1)) with h3 | h3
        · exact Or.inr (Or.inl (h.trans h3))
        · exact Or.inr (Or.inr (h.trans h3))
    have hBCcases : levenshteinDistance (y :: bs) (z :: cs) = levenshteinDistance bs (z :: cs) + 1
        ∨ levenshteinDistance (y :: bs) (z :: cs) = levenshteinDistance (y :: bs) cs + 1
        ∨ levenshteinDistance (y :: bs) (z :: cs) =
            levenshteinDistance bs cs + (if y = z then 0 else 1) := by
      rw [levenshteinDistance_cons_cons]
      rcases min_choice (levenshteinDistance bs (z :: cs) + 1)
          (min (levenshteinDistance (y :: bs) cs + 1)
            (levenshteinDistance bs cs + (if y = z then 0 else 1))) with h | h
      · exact Or.inl h
      · rcases min_choice (levenshteinDistance (y :: bs) cs + 1)
            (levenshteinDistance bs cs + (if y = z then 0 else 1)) with h3 | h3
        · exact Or.inr (Or.inl (h.trans h3))
        · exact Or.inr (Or.inr (h.trans h3))
    rcases hABcases with hAB | hAB | hAB
    · -- the (a,b) optimum deletes x
      have ih1 : levenshteinDistance as (z :: cs) ≤
          levenshteinDistance as (y :: bs) + levenshteinDistance (y :: bs) (z :: cs) :=
        ih (as.length + (y :: bs).length + (z :: cs).length)
          (by simp only [List.length_cons] at hlen ⊢; omega) as (y :: bs) (z :: cs) rfl
      omega
    · rcases hBCcases with hBC | hBC | hBC
      · -- drop the middle head on both sides
        have ih1 : levenshteinDistance (x :: as) (z :: cs) ≤
            levenshteinDistance (x :: as) bs + levenshteinDistance bs (z :: cs) :=
          ih ((x :: as).length + bs.length + (z :: cs).length)
            (by simp only [List.length_cons] at hlen ⊢; omega) (x :: as) bs (z :: cs) rfl
        omega
      · -- the (b,c) optimum inserts z
        have ih1 : levenshteinDistance (x :: as) cs ≤
            levenshteinDistance (x :: as) (y :: bs) + levenshteinDistance (y :: bs) cs :=
          ih ((x :: as).length + (y :: bs).length + cs.length)
            (by simp only [List.length_cons] at hlen ⊢; omega) (x :: as) (y :: bs) cs rfl
        omega
      · have ih1 : levenshteinDistance (x :: as) cs ≤
            levenshteinDistance (x :: as) bs + levenshteinDistance bs cs :=
          ih ((x :: as).length + bs.length + cs.length)
            (by simp only [List.length_cons] at hlen ⊢; omega) (x :: as) bs cs rfl
        have hc : (0 : Nat) ≤ (if y = z then 0 else 1) := by omega
        omega
    · rcases hBCcases with hBC | hBC | hBC
      · have ih1 : levenshteinDistance as (z :: cs) ≤
            levenshteinDistance as bs + levenshteinDistance bs (z :: cs) :=
          ih (as.length + bs.length + (z :: cs).length)
            (by simp only [List.length_cons] at hlen ⊢; omega) as bs (z :: cs) rfl
        have hc : (0 : Nat) ≤ (if x = y then 0 else 1) := by omega
        omega
      · have ih1 : levenshteinDistance (x :: as) cs ≤
            levenshteinDistance (x :: as) (y :: bs) + levenshteinDistance (y :: bs) cs :=
          ih ((x :: as).length + (y :: bs).length + cs.length)
            (by simp only [List.length_cons] at hlen ⊢; omega) (x :: as) (y :: bs) cs rfl
        omega
      · -- both optima substitute: use the discrete triangle on costs
        have ih1 : levenshteinDistance as cs ≤
            levenshteinDistance as bs + levenshteinDistance bs cs :=
          ih (as.length + bs.length + cs.length)
            (by simp only [List.length_cons] at hlen ⊢; omega) as bs cs rfl
        have hcost : (if x = z then 0 else 1) ≤
            (if x = y then 0 else 1) + (if y = z then 0 else 1) := by
          by_cases hxy : x = y
          · subst hxy
            simp
          · have hone : (if x = z then 0 else 1) ≤ 1 := by split <;> omega
            rw [if_neg hxy]
            omega
        omega

/-- Similarity of a string with itself is `1`. -/
theorem similarity_self (s : List Char) : similarity s s = 1 := by
  unfold similarity
  simp only [max_self]
  by_cases h : s.length = 0
  · simp [h]
  · simp [h, levenshteinDistance_self]

/-- C8. The edit distance is a metric-like function: `levenshteinDistance` is
symmetric and satisfies the triangle inequality for all strings, and the
similarity ratio of any string with itself is `1` (including the empty
string). -/
theorem editDistance_metric_properties :
    (∀ a b, levenshteinDistance a b = levenshteinDistance b a)
    ∧ (∀ a b c, levenshteinDistance a c ≤ levenshteinDistance a b + levenshteinDistance b c)
    ∧ (∀ s, similarity s s = 1) :=
  ⟨levenshteinDistance_comm,
   fun a b c => levenshteinDistance_triangle (a.length + b.length + c.length) a b c rfl,
   similarity_self⟩

/-! ## Scanning primitives

`firstFrom f s p` models a left-to-right scan that returns the index (counted
from `p`, the index of `s`'s head in the enclosing string) of the first
suffix of `s` satisfying `f`. It is the common skeleton of JavaScript's
`String.indexOf` (with `f` = "the needle is a prefix here") and of
`RegExp.exec` (with `f` = "the pattern matches starting here"). -/

/-- First index at or after `p` whose suffix satisfies `f`. -/
def firstFrom (f : List Char → Bool) : List Char → Nat → Option Nat
  | s, p =>
    if f s then some p
    else
      match s with
      | [] => none
      | _ :: t => firstFrom f t (p + 1)

theorem firstFrom_eq_some {f : List Char → Bool} :
    ∀ {s : List Char} {p q : Nat}, firstFrom f s p = some q →
      p ≤ q ∧ f (s.drop (q - p)) = true ∧ ∀ j, p ≤ j → j < q → f (s.drop (j - p)) = false := by
  intro s
  induction s with
  | nil =>
      intro p q h
      rw [firstFrom] at h
      by_cases hf : f [] = true
      · simp [hf] at h
        subst h
        exact ⟨le_refl _, by simpa using hf, fun j h1 h2 => absurd h1 (by omega)⟩
      · simp [Bool.not_eq_true] at hf
        simp [hf] at h
  | cons c t ih =>
      intro p q h
      rw [firstFrom] at h
      by_cases hf : f (c :: t) = true
      · simp [hf] at h
        subst h
        exact ⟨le_refl _, by simpa using hf, fun j h1 h2 => absurd h1 (by omega)⟩
      · simp [Bool.not_eq_true] at hf
        simp [hf] at h
        obtain ⟨h1, h2, h3⟩ := ih h
        refine ⟨by omega, ?_, ?_⟩
        · have : (c :: t).drop (q - p) = t.drop (q - (p + 1)) := by
            have hq : q - p = (q - (p + 1)) + 1 := by omega
            rw [hq]
            simp
          rw [this]
          exact h2
        · intro j hj1 hj2
          rcases Nat.eq_or_lt_of_le hj1 with hj | hj
          · subst hj
            simpa using hf
          · have : (c :: t).drop (j - p) = t.drop (j - (p + 1)) := by
              have hq : j - p = (j - (p + 1)) + 1 := by omega
              rw [hq]
              simp
            rw [this]
            exact h3 j (by omega) hj2

theorem firstFrom_eq_none {f : List Char → Bool} :
    ∀ {s : List Char} {p : Nat}, firstFrom f s p = none →
      ∀ k, f (s.drop k) = false := by
  intro s
  induction s with
  | nil =>
      intro p h k
      rw [firstFrom] at h
      by_cases hf : f [] = true
      · simp [hf] at h
      · simp [Bool.not_eq_true] at hf
        simpa using hf
  | cons c t ih =>
      intro p h k
      rw [firstFrom] at h
      by_cases hf : f (c :: t) = true
      · simp [hf] at h
      · simp [Bool.not_eq_true] at hf
        simp [hf] at h
        cases k with
        | zero => simpa using hf
        | succ k => simpa using ih h k

/-! ## Keyword matching (`src/detection/matcher.ts`, `matchKeyword`)

The source lowercases the text and the keyword once, then repeatedly calls
`lowerText.indexOf(lowerKeyword, position)`, records a match at each found
index, and resumes the scan at `found + 1` so that overlapping occurrences
are all reported. -/

/-- The lowercased keyword occurs in the lowercased text at position `p`. -/
def occursAt (text kw : List Char) (p : Nat) : Bool :=
  (lower kw).isPrefixOf ((lower text).drop p)

/-- JavaScript `hay.indexOf(needle, start)`: the smallest index at or after
`start` at which `needle` occurs in `hay`, if any. -/
def jsIndexOf (hay needle : List Char) (start : Nat) : Option Nat :=
  firstFrom (fun s => needle.isPrefixOf s) (hay.drop start) start

theorem jsIndexOf_some {hay needle : List Char} {start q : Nat}
    (h : jsIndexOf hay needle start = some q) :
    start ≤ q ∧ needle.isPrefixOf (hay.drop q) = true
      ∧ ∀ j, start ≤ j → j < q → needle.isPrefixOf (hay.drop j) = false := by
  obtain ⟨h1, h2, h3⟩ := firstFrom_eq_some h
  have hdrop : ∀ j, start ≤ j → (hay.drop start).drop (j - start) = hay.drop j := by
    intro j hj
    rw [List.drop_drop]
    congr 1
    omega
  refine ⟨h1, ?_, ?_⟩
  · rw [hdrop q h1] at h2
    exact h2
  · intro j hj1 hj2
    have := h3 j hj1 hj2
    rwa [hdrop j hj1] at this

theorem jsIndexOf_none {hay needle : List Char} {start : Nat}
    (h : jsIndexOf hay needle start = none) :
    ∀ q, start ≤ q → needle.isPrefixOf (hay.drop q) = false := by
  intro q hq
  have := firstFrom_eq_none h (q - start)
  rw [List.drop_drop] at this
  have heq : start + (q - start) = q := by omega
  rwa [heq] at this

/-- An occurrence of a nonempty keyword is strictly inside the text. -/
theorem occursAt_lt_length {text kw : List Char} {q : Nat} (hkw : kw ≠ [])
    (h : occursAt text kw q = true) : q < text.length := by
  unfold occursAt at h
  rw [List.isPrefixOf_iff_prefix] at h
  by_contra hq
  push_neg at hq
  have hdrop : (lower text).drop q = [] := by
    apply List.drop_eq_nil_of_le
    simpa [lower] using hq
  rw [hdrop, List.prefix_nil] at h
  exact hkw (by simpa [lower] using h)

/-- Construct the `RuleMatch` that `matchKeyword` pushes for a hit at `p`:
`matchedText` is `text.substring(p, p + keyword.length)`, the confidence is
`1.0`, and `ruleId`/`ruleName` are left empty for the caller to fill in. -/
def mkKeywordMatch (text : List Char) (kwLen p : Nat) : RuleMatch :=
  { ruleId := []
    ruleName := []
    matchedText := (text.drop p).take kwLen
    position := p
    confidence := 1 }

/-- The scan loop of `matchKeyword`. The source's `while` loop terminates
because each iteration moves `position` past the found index; `fuel` makes
that termination argument explicit and is chosen large enough in
`matchKeyword` to never run out for a nonempty keyword. -/
def matchKeywordAux (text lowText lowKw : List Char) (kwLen : Nat) :
    Nat → Nat → List RuleMatch
  | 0, _ => []
  | fuel + 1, pos =>
    match jsIndexOf lowText lowKw pos with
    | none => []
    | some p =>
        mkKeywordMatch text kwLen p ::
          matchKeywordAux text lowText lowKw kwLen fuel (p + 1)

/-- `matchKeyword` (`src/detection/matcher.ts`): case-insensitive substring
scan reporting every (overlapping) occurrence. -/
def matchKeyword (text keyword : List Char) : List RuleMatch :=
  matchKeywordAux text (lower text) (lower keyword) keyword.length (text.length + 1) 0

theorem matchKeywordAux_pos_le (text kw : List Char) :
    ∀ fuel pos m, m ∈ matchKeywordAux text (lower text) (lower kw) kw.length fuel pos →
      pos ≤ m.position := by
  intro fuel
  induction fuel with
  | zero => intro pos m hm; simp [matchKeywordAux] at hm
  | succ fuel ih =>
      intro pos m hm
      rw [matchKeywordAux] at hm
      rcases hidx : jsIndexOf (lower text) (lower kw) pos with _ | p
      · rw [hidx] at hm
        simp at hm
      · rw [hidx] at hm
        obtain ⟨hp, _, _⟩ := jsIndexOf_some hidx
        rcases List.mem_cons.mp hm with hm | hm
        · subst hm
          simpa [mkKeywordMatch] using hp
        · have := ih (p + 1) m hm
          omega

theorem matchKeywordAux_pairwise (text kw : List Char) :
    ∀ fuel pos, (matchKeywordAux text (lower text) (lower kw) kw.length fuel pos).Pairwise
      (fun m m' => m.position < m'.position) := by
  intro fuel
  induction fuel with
  | zero => intro pos; simp [matchKeywordAux]
  | succ fuel ih =>
      intro pos
      rw [matchKeywordAux]
      rcases hidx : jsIndexOf (lower text) (lower kw) pos with _ | p
      · simp
      · refine List.Pairwise.cons ?_ (ih (p + 1))
        intro m hm
        have := matchKeywordAux_pos_le text kw fuel (p + 1) m hm
        simp only [mkKeywordMatch]
        omega

theorem matchKeywordAux_mem (text kw : List Char) (hkw : kw ≠ []) :
    ∀ fuel pos, text.length + 1 ≤ fuel + pos →
      ∀ q, (∃ m ∈ matchKeywordAux text (lower text) (lower kw) kw.length fuel pos,
          m.position = q)
        ↔ (pos ≤ q ∧ occursAt text kw q = true) := by
  intro fuel
  induction fuel with
  | zero =>
      intro pos hfuel q
      simp only [matchKeywordAux]
      constructor
      · rintro ⟨m, hm, _⟩
        simp at hm
      · rintro ⟨hq, hocc⟩
        have := occursAt_lt_length hkw hocc
        omega
  | succ fuel ih =>
      intro pos hfuel q
      rw [matchKeywordAux]
      rcases hidx : jsIndexOf (lower text) (lower kw) pos with _ | p
      · constructor
        · rintro ⟨m, hm, _⟩
          simp at hm
        · rintro ⟨hq, hocc⟩
          have := jsIndexOf_none hidx q hq
          unfold occursAt at hocc
          rw [this] at hocc
          cases hocc
      · obtain ⟨hp, hoccp, hmin⟩ := jsIndexOf_some hidx
        have hplen : p < text.length := by
          have : occursAt text kw p = true := hoccp
          exact occursAt_lt_length hkw this
        have hih := ih (p + 1) (by omega) q
        constructor
        · rintro ⟨m, hm, hmq⟩
          rcases List.mem_cons.mp hm with hm | hm
          · subst hm
            simp only [mkKeywordMatch] at hmq
            subst hmq
            exact ⟨hp, hoccp⟩
          · obtain ⟨h1, h2⟩ := hih.mp ⟨m, hm, hmq⟩
            exact ⟨by omega, h2⟩
        · rintro ⟨hq, hocc⟩
          by_cases hqp : q = p
          · subst hqp
            exact ⟨mkKeywordMatch text kw.length q, List.mem_cons_self _ _, rfl⟩
          · have hqgt : p + 1 ≤ q := by
              rcases Nat.lt_or_ge q p with hlt | hge
              · have := hmin q hq hlt
                unfold occursAt at hocc
                rw [this] at hocc
                cases hocc
              · omega
            obtain ⟨m, hm, hmq⟩ := hih.mpr ⟨hqgt, hocc⟩
            exact ⟨m, List.mem_cons_of_mem _ hm, hmq⟩

theorem nonBlank_ne_nil {kw : List Char} (h : nonBlank kw = true) : kw ≠ [] := by
  intro hnil
  subst hnil
  simp [nonBlank, jsTrim] at h

/-- C5. `matchKeyword` performs a case-insensitive scan reporting a match at
exactly the positions where the keyword occurs (in particular all
overlapping and repeated occurrences, since the scan resumes at `p + 1`):
the reported positions are strictly increasing, embedding the keyword at
position `p` yields a match at `p`, and the doubled keyword `kk` yields at
least two (overlapping) matches. -/
theorem matchKeyword_reports_all_occurrences (text kw : List Char)
    (h : nonBlank kw = true) :
    (∀ p, (∃ m ∈ matchKeyword text kw, m.position = p) ↔ occursAt text kw p = true)
    ∧ (matchKeyword text kw).Pairwise (fun m m' => m.position < m'.position)
    ∧ (∀ pre suf, text = pre ++ kw ++ suf →
        ∃ m ∈ matchKeyword text kw, m.position = pre.length)
    ∧ 2 ≤ (matchKeyword (kw ++ kw) kw).length := by
  have hkw := nonBlank_ne_nil h
  have hmem := fun t => matchKeywordAux_mem t kw hkw (t.length + 1) 0 (by omega)
  refine ⟨?_, matchKeywordAux_pairwise text kw (text.length + 1) 0, ?_, ?_⟩
  · intro p
    rw [matchKeyword]
    rw [hmem text p]
    simp
  · intro pre suf htext
    rw [matchKeyword, hmem text pre.length]
    refine ⟨by omega, ?_⟩
    subst htext
    unfold occursAt lower
    rw [List.map_append, List.map_append, List.append_assoc]
    have hlen : (pre.map Char.toLower).length = pre.length := by simp
    rw [← hlen, List.drop_left]
    rw [List.isPrefixOf_iff_prefix]
    exact List.prefix_append _ _
  · have h0 : ∃ m ∈ matchKeyword (kw ++ kw) kw, m.position = 0 := by
      rw [matchKeyword, hmem (kw ++ kw) 0]
      refine ⟨by omega, ?_⟩
      unfold occursAt lower
      rw [List.map_append, List.drop_zero, List.isPrefixOf_iff_prefix]
      exact List.prefix_append _ _
    have h1 : ∃ m ∈ matchKeyword (kw ++ kw) kw, m.position = kw.length := by
      rw [matchKeyword, hmem (kw ++ kw) kw.length]
      refine ⟨by omega, ?_⟩
      unfold occursAt lower
      rw [List.map_append]
      have hlen : (kw.map Char.toLower).length = kw.length := by simp
      rw [← hlen, List.drop_left, List.isPrefixOf_iff_prefix]
    obtain ⟨m0, hm0, hp0⟩ := h0
    obtain ⟨m1, hm1, hp1⟩ := h1
    have hne : m0 ≠ m1 := by
      intro heq
      rw [heq, hp1] at hp0
      have : kw.length ≠ 0 := by
        intro hl
        exact hkw (List.length_eq_zero.mp hl)
      omega
    rcases hlist : matchKeyword (kw ++ kw) kw with _ | ⟨a, _ | ⟨b, rest⟩⟩
    · rw [hlist] at hm0
      simp at hm0
    · rw [hlist] at hm0 hm1
      simp at hm0 hm1
      rw [hm0, hm1] at hne
      exact absurd rfl hne
    · simp

/-! ## Regular expressions

A small regular-expression engine (Brzozowski derivatives) modelling the
JavaScript `RegExp` features used by the matcher: literal characters
(case-insensitive, as every regex in the source carries the `i` flag),
`\s`, `\w`, `\d`, `.`, groups, alternation and the `* + ?` quantifiers.
The JavaScript character classes are modelled on their ASCII cores
(`Char.isWhitespace` for `\s`, ASCII alphanumerics and underscore for
`\w`); no claim below depends on exotic Unicode membership. -/

/-- Regular expression syntax. `cls` matches one character satisfying the
predicate. -/
inductive Rx where
  | emp
  | eps
  | cls (p : Char → Bool)
  | seq (a b : Rx)
  | alt (a b : Rx)
  | star (a : Rx)

/-- Does the regex accept the empty string? -/
def nullable : Rx → Bool
  | .emp => false
  | .eps => true
  | .cls _ => false
  | .seq a b => nullable a && nullable b
  | .alt a b => nullable a || nullable b
  | .star _ => true

/-- Smart sequencing, pruning the absurd and unit cases so that derivative
terms stay small. -/
def rseq : Rx → Rx → Rx
  | .emp, _ => .emp
  | .eps, b => b
  | _, .emp => .emp
  | a, .eps => a
  | a, b => .seq a b

/-- Smart alternation, pruning the absurd cases. -/
def ralt : Rx → Rx → Rx
  | .emp, b => b
  | a, .emp => a
  | a, b => .alt a b

/-- Brzozowski derivative: the residual regex after consuming `c`. -/
def deriv : Rx → Char → Rx
  | .emp, _ => .emp
  | .eps, _ => .emp
  | .cls p, c => if p c then .eps else .emp
  | .seq a b, c =>
      if nullable a then ralt (rseq (deriv a c) b) (deriv b c)
      else rseq (deriv a c) b
  | .alt a b, c => ralt (deriv a c) (deriv b c)
  | .star a, c => rseq (deriv a c) (.star a)

/-- Does the regex match some prefix of `s`? -/
def matchesPref : Rx → List Char → Bool
  | r, [] => nullable r
  | r, c :: t => nullable r || matchesPref (deriv r c) t

/-- `regex.exec(text)` for a non-global regex: the index of the leftmost
position at which the pattern matches, if any. -/
def execRx (r : Rx) (text : List Char) : Option Nat :=
  firstFrom (fun s => matchesPref r s) text 0

/-- Length of the longest prefix of `s` matched by `r` (`none` if no prefix
matches). This models the length of `match[0]`; JavaScript's backtracking
order can select a shorter alternative in contrived patterns, but no theorem
in this development depends on the exact matched text of a regex match. -/
def longestMatchLenAux : Rx → List Char → Nat → Option Nat → Option Nat
  | r, [], i, best => if nullable r then some i else best
  | r, c :: t, i, best =>
      longestMatchLenAux (deriv r c) t (i + 1) (if nullable r then some i else best)

/-- Longest matched-prefix length, defaulting to `0`. -/
def longestMatchLen (r : Rx) (s : List Char) : Nat :=
  (longestMatchLenAux r s 0 none).getD 0

/-- Case-insensitive literal character (every regex in the source has the
`i` flag). -/
def rchar (c : Char) : Rx := .cls (fun x => x.toLower == c.toLower)

/-- Case-insensitive literal string. -/
def rstr (s : String) : Rx := s.toList.foldr (fun c r => Rx.seq (rchar c) r) .eps

/-- The `\s` class. -/
def wsp : Rx := .cls Char.isWhitespace

/-- The `\w` class: ASCII alphanumerics and underscore. -/
def wordc : Rx := .cls (fun c => c.isAlphanum || c == '_')

/-- The `\d` class. -/
def digc : Rx := .cls Char.isDigit

/-- The `.` class: any character except a line terminator. -/
def rdot : Rx := .cls (fun c => !(c == '\n' || c == '\r'))

/-- `r+`. -/
def plusR (r : Rx) : Rx := .seq r (.star r)

/-- `r?`. -/
def optR (r : Rx) : Rx := .alt r .eps

/-- Three-way alternation `(a|b|c)`. -/
def alt3 (a b c : Rx) : Rx := .alt a (.alt b c)

/-- Sequence of a list of regexes. -/
def rxCat (rs : List Rx) : Rx := rs.foldr Rx.seq .eps

/-- `\s+`. -/
def wsPlus : Rx := plusR wsp

/-- `(previous|prior|above)`. -/
def prevPriorAbove : Rx := alt3 (rstr "previous") (rstr "prior") (rstr "above")

/-- `(instructions?|prompts?|rules?)`. -/
def instrPromptRules : Rx :=
  alt3 (Rx.seq (rstr "instruction") (optR (rchar 's')))
    (Rx.seq (rstr "prompt") (optR (rchar 's')))
    (Rx.seq (rstr "rule") (optR (rchar 's')))

/-- Shared shape of the first three injection signatures:
`verb\s+(all\s+)?(previous|prior|above)\s+(instructions?|prompts?|rules?)`. -/
def overrideSig (verb : String) : Rx :=
  rxCat [rstr verb, wsPlus, optR (Rx.seq (rstr "all") wsPlus), prevPriorAbove,
    wsPlus, instrPromptRules]

/-- The built-in injection signature library
(`INJECTION_SIGNATURES` in `src/detection/matcher.ts`), 11 regexes. -/
def INJECTION_SIGNATURES : List Rx :=
  [ overrideSig "ignore"
  , overrideSig "disregard"
  , overrideSig "forget"
  , rxCat [rstr "you", wsPlus, rstr "are", wsPlus, rstr "now", wsPlus,
      optR (Rx.alt (rstr "a") (rstr "an")), Rx.star wsp, plusR wordc]
  , rxCat [rstr "pretend", wsPlus,
      Rx.alt (rxCat [rstr "you", wsPlus, rstr "are"])
        (rxCat [rstr "to", wsPlus, rstr "be"]), wsPlus]
  , rxCat [rstr "act", wsPlus, rstr "as", wsPlus,
      optR (rxCat [rstr "if", wsPlus, rstr "you", wsPlus, rstr "are", wsPlus])]
  , rxCat [rstr "new", wsPlus, rstr "instruction", optR (rchar 's'), rchar ':']
  , rxCat [rstr "system", Rx.star wsp, rchar ':', Rx.star wsp]
  , rxCat [rchar '[', rstr "system", rchar ']']
  , rxCat [rchar (Char.ofNat 123), rchar (Char.ofNat 123), Rx.star rdot,
      rchar (Char.ofNat 125), rchar (Char.ofNat 125)]
  , rxCat [rchar '<', rchar '|', Rx.star rdot, rchar '|', rchar '>']
  ]

/-- The built-in jailbreak pattern library
(`JAILBREAK_PATTERNS` in `src/detection/matcher.ts`), 14 regexes. -/
def JAILBREAK_PATTERNS : List Rx :=
  [ rxCat [rstr "dan", Rx.star wsp, optR (Rx.alt (rstr "mode") (rstr "prompt"))]
  , rxCat [rstr "do", wsPlus, rstr "anything", wsPlus, rstr "now"]
  , rstr "jailbreak"
  , rxCat [rstr "bypass", wsPlus,
      alt3 (rstr "safety") (rstr "filter") (rstr "restriction")]
  , rxCat [rstr "ignore", wsPlus,
      alt3 (rstr "safety") (rstr "ethical") (rstr "moral"), wsPlus,
      alt3 (Rx.seq (rstr "guideline") (optR (rchar 's')))
        (Rx.seq (rstr "rule") (optR (rchar 's')))
        (Rx.seq (rstr "restriction") (optR (rchar 's')))]
  , rxCat [rstr "no", wsPlus,
      alt3 (Rx.seq (rstr "restriction") (optR (rchar 's')))
        (Rx.seq (rstr "limitation") (optR (rchar 's')))
        (rstr "boundaries")]
  , rxCat [rstr "unrestricted", wsPlus, rstr "mode"]
  , rxCat [rstr "developer", wsPlus, rstr "mode"]
  , rxCat [rstr "god", wsPlus, rstr "mode"]
  , rxCat [rstr "sudo", wsPlus, rstr "mode"]
  , rxCat [rstr "admin", wsPlus, rstr "mode"]
  , rxCat [rstr "unlock", wsPlus, optR (Rx.seq (rstr "all") wsPlus),
      alt3 (rstr "capabilities") (rstr "features") (rstr "restrictions")]
  , rxCat [rstr "remove", wsPlus, optR (Rx.seq (rstr "all") wsPlus),
      alt3 (Rx.seq (rstr "filter") (optR (rchar 's')))
        (Rx.seq (rstr "restriction") (optR (rchar 's')))
        (Rx.seq (rstr "limitation") (optR (rchar 's')))]
  , rxCat [rstr "disable", wsPlus, Rx.alt (rstr "safety") (rstr "content"),
      wsPlus, Rx.alt (Rx.seq (rstr "filter") (optR (rchar 's')))
        (Rx.seq (rstr "check") (optR (rchar 's')))]
  ]

/-- A match carrying fixed metadata, as pushed for one signature hit. -/
def mkBuiltinMatch (rid rname : String) (conf : ℚ) (text : List Char)
    (r : Rx) (i : Nat) : RuleMatch :=
  { ruleId := str rid
    ruleName := str rname
    matchedText := (text.drop i).take (longestMatchLen r (text.drop i))
    position := i
    confidence := conf }

/-- `matchInjection` (`src/detection/matcher.ts`): for each built-in
injection signature, `exec` without the global flag reports at most its
first occurrence, with `ruleId` `injection-signature` and confidence 0.9. -/
def matchInjection (text : List Char) : List RuleMatch :=
  INJECTION_SIGNATURES.filterMap fun sig =>
    (execRx sig text).map
      (mkBuiltinMatch "injection-signature" "Injection Signature" (9/10) text sig)

/-- `matchJailbreak` (`src/detection/matcher.ts`): for each built-in
jailbreak pattern, at most its first occurrence, with `ruleId`
`jailbreak-pattern` and confidence 0.85. -/
def matchJailbreak (text : List Char) : List RuleMatch :=
  JAILBREAK_PATTERNS.filterMap fun pat =>
    (execRx pat text).map
      (mkBuiltinMatch "jailbreak-pattern" "Jailbreak Pattern" (17/20) text pat)

/-! ## Compilation of custom patterns

`matchPattern` compiles the rule's pattern string with `new RegExp(pattern,
"gi")` and swallows compile failures. `compileRegex` below models the
JavaScript compiler on the subset of syntax exercised in this development
(literals, escapes, `.`, groups, alternation, `* + ?`); syntax outside the
subset (character classes, anchors, brace quantifiers, `\b`) is treated as
non-compiling. -/

/-- Apply trailing `* + ?` quantifiers to a parsed atom. -/
def applyPostfix (r : Rx) : List Char → Rx × List Char
  | '*' :: t => applyPostfix (Rx.star r) t
  | '+' :: t => applyPostfix (Rx.seq r (Rx.star r)) t
  | '?' :: t => applyPostfix (Rx.alt r Rx.eps) t
  | s => (r, s)

/-- Translate an escape sequence. -/
def escapeRx (c : Char) : Option Rx :=
  if c == 's' then some wsp
  else if c == 'w' then some wordc
  else if c == 'd' then some digc
  else if c == 'n' then some (rchar (Char.ofNat 10))
  else if c == 't' then some (rchar (Char.ofNat 9))
  else if c == 'b' || c == 'B' || c == 'S' || c == 'W' || c == 'D' then none
  else some (rchar c)

mutual

/-- Parse an alternation `cat ('|' cat)*`. -/
def parseAlt : Nat → List Char → Option (Rx × List Char)
  | 0, _ => none
  | fuel + 1, s => do
    let (r1, rest) ← parseCat fuel s
    match rest with
    | '|' :: t => do
        let (r2, rest2) ← parseAlt fuel t
        some (Rx.alt r1 r2, rest2)
    | _ => some (r1, rest)

/-- Parse a concatenation of quantified atoms. -/
def parseCat : Nat → List Char → Option (Rx × List Char)
  | 0, _ => none
  | fuel + 1, s =>
    match s with
    | [] => some (Rx.eps, [])
    | ')' :: _ => some (Rx.eps, s)
    | '|' :: _ => some (Rx.eps, s)
    | _ => do
        let (a, r1) ← parseAtom fuel s
        let (a2, r2) := applyPostfix a r1
        let (b, r3) ← parseCat fuel r2
        some (Rx.seq a2 b, r3)

/-- Parse one atom. -/
def parseAtom : Nat → List Char → Option (Rx × List Char)
  | 0, _ => none
  | fuel + 1, s =>
    match s with
    | [] => none
    | '(' :: t => do
        let (r, rest) ← parseAlt fuel t
        match rest with
        | ')' :: t2 => some (r, t2)
        | _ => none
    | '\\' :: c :: t => do
        let r ← escapeRx c
        some (r, t)
    | '\\' :: [] => none
    | '.' :: t => some (rdot, t)
    | '*' :: _ => none
    | '+' :: _ => none
    | '?' :: _ => none
    | ')' :: _ => none
    | '|' :: _ => none
    | '[' :: _ => none
    | '^' :: _ => none
    | '$' :: _ => none
    | c :: t => if c == Char.ofNat 123 then none else some (rchar c, t)

end

/-- Model of `new RegExp(pattern, "gi")`: `none` models a compile failure. -/
def compileRegex (pattern : List Char) : Option Rx :=
  match parseAlt (2 * pattern.length + 4) pattern with
  | some (r, []) => some r
  | _ => none

/-- One `exec` step of a global regex from `lastIndex = pos`. -/
def jsExecFrom (r : Rx) (orig : List Char) (pos : Nat) : Option Nat :=
  if orig.length < pos then none
  else firstFrom (fun s => matchesPref r s) (orig.drop pos) pos

/-- The `while (match = regex.exec(text))` loop of `matchPattern`: record a
match at each found index and advance `lastIndex` past the match, by one
position for a zero-length match. -/
def matchPatternAux (orig : List Char) (r : Rx) : Nat → Nat → List RuleMatch
  | 0, _ => []
  | fuel + 1, pos =>
    match jsExecFrom r orig pos with
    | none => []
    | some i =>
        let len := longestMatchLen r (orig.drop i)
        { ruleId := []
          ruleName := []
          matchedText := (orig.drop i).take len
          position := i
          confidence := 1 } ::
          matchPatternAux orig r fuel (i + max len 1)

/-- `matchPattern` (`src/detection/matcher.ts`): global case-insensitive
regex scan; an invalid pattern yields no matches. -/
def matchPattern (text pattern : List Char) : List RuleMatch :=
  match compileRegex pattern with
  | none => []
  | some r => matchPatternAux text r (text.length + 2) 0

theorem execRx_spec {r : Rx} {text : List Char} {i : Nat}
    (h : execRx r text = some i) :
    matchesPref r (text.drop i) = true
      ∧ ∀ j, j < i → matchesPref r (text.drop j) = false := by
  obtain ⟨h1, h2, h3⟩ := firstFrom_eq_some h
  refine ⟨by simpa using h2, fun j hj => ?_⟩
  simpa using h3 j (Nat.zero_le j) hj

/-- C10. Each built-in injection signature and each built-in jailbreak
pattern contributes at most one match — at the first position in the text
where it matches — so `matchInjection` returns at most 11 matches and
`matchJailbreak` at most 14, no matter how often a signature phrase
repeats. -/
theorem builtin_signatures_first_occurrence_only (text : List Char) :
    (matchInjection text).length ≤ 11
    ∧ (matchJailbreak text).length ≤ 14
    ∧ (∀ m, m ∈ matchInjection text → m.ruleId = str "injection-signature"
        ∧ ∃ sig ∈ INJECTION_SIGNATURES, matchesPref sig (text.drop m.position) = true
            ∧ ∀ j, j < m.position → matchesPref sig (text.drop j) = false)
    ∧ (∀ m, m ∈ matchJailbreak text → m.ruleId = str "jailbreak-pattern"
        ∧ ∃ pat ∈ JAILBREAK_PATTERNS, matchesPref pat (text.drop m.position) = true
            ∧ ∀ j, j < m.position → matchesPref pat (text.drop j) = false) := by
  refine ⟨?_, ?_, ?_, ?_⟩
  · have h := List.length_filterMap_le
      (fun sig => (execRx sig text).map
        (mkBuiltinMatch "injection-signature" "Injection Signature" (9/10) text sig))
      INJECTION_SIGNATURES
    simpa [matchInjection, INJECTION_SIGNATURES] using h
  · have h := List.length_filterMap_le
      (fun pat => (execRx pat text).map
        (mkBuiltinMatch "jailbreak-pattern" "Jailbreak Pattern" (17/20) text pat))
      JAILBREAK_PATTERNS
    simpa [matchJailbreak, JAILBREAK_PATTERNS] using h
  · intro m hm
    rw [matchInjection, List.mem_filterMap] at hm
    obtain ⟨sig, hsig, heq⟩ := hm
    rw [Option.map_eq_some'] at heq
    obtain ⟨i, hexec, hmk⟩ := heq
    subst hmk
    obtain ⟨hmatch, hmin⟩ := execRx_spec hexec
    exact ⟨rfl, sig, hsig, hmatch, hmin⟩
  · intro m hm
    rw [matchJailbreak, List.mem_filterMap] at hm
    obtain ⟨pat, hpat, heq⟩ := hm
    rw [Option.map_eq_some'] at heq
    obtain ⟨i, hexec, hmk⟩ := heq
    subst hmk
    obtain ⟨hmatch, hmin⟩ := execRx_spec hexec
    exact ⟨rfl, pat, hpat, hmatch, hmin⟩

/-! ## Rule model and validation (`src/detection/rule.ts`) -/

/-- The seven valid rule types. -/
def VALID_RULE_TYPES : List (List Char) :=
  [str "KEYWORD", str "PATTERN", str "INJECTION", str "JAILBREAK",
   str "SARA", str "HOAX", str "MALWARE"]

/-- The four valid severities. -/
def VALID_SEVERITIES : List (List Char) :=
  [str "LOW", str "MEDIUM", str "HIGH", str "CRITICAL"]

/-- Validation outcome: `valid` iff no errors. -/
structure ValidationResult where
  valid : Bool
  errors : List (List Char)
  warnings : List (List Char)
deriving DecidableEq, Repr

/-- `validateRegexPattern`: does the pattern compile? The source returns the
compiler's message on failure; only the success bit matters downstream. -/
def validateRegexPattern (pattern : List Char) : Bool :=
  (compileRegex pattern).isSome

/-- The name checks of `validateRule` (required, at most 100 characters). -/
def nameErrors (rule : DetectionRule) : List (List Char) :=
  if rule.name = [] ∨ (jsTrim rule.name).length = 0 then [str "Rule name is required"]
  else if 100 < rule.name.length then [str "Rule name must be 100 characters or less"]
  else []

/-- The type checks of `validateRule` (required, one of the seven kinds). -/
def typeErrors (rule : DetectionRule) : List (List Char) :=
  if rule.type = [] then [str "Rule type is required"]
  else if ¬ (rule.type ∈ VALID_RULE_TYPES) then [str "Invalid rule type"]
  else []

/-- The pattern checks of `validateRule` (required; must compile for
PATTERN/INJECTION/JAILBREAK rules). -/
def patternErrors (rule : DetectionRule) : List (List Char) :=
  if rule.pattern = [] ∨ (jsTrim rule.pattern).length = 0 then [str "Rule pattern is required"]
  else if (rule.type = str "PATTERN" ∨ rule.type = str "INJECTION"
      ∨ rule.type = str "JAILBREAK") ∧ validateRegexPattern rule.pattern = false then
    [str "Invalid regex pattern"]
  else []

/-- The severity check of `validateRule`. -/
def severityErrors (rule : DetectionRule) : List (List Char) :=
  if rule.severity ≠ [] ∧ ¬ (rule.severity ∈ VALID_SEVERITIES) then [str "Invalid severity"]
  else []

/-- The non-fatal warnings of `validateRule`. -/
def ruleWarnings (rule : DetectionRule) : List (List Char) :=
  (if rule.action = RuleAction.LOG ∧ rule.severity = str "CRITICAL" then
    [str "Critical severity rules typically use BLOCK action, not LOG"]
  else []) ++
  (if rule.type = str "KEYWORD" ∧ rule.pattern ≠ [] ∧ rule.pattern.length < 3 then
    [str "Very short keyword patterns may cause false positives"]
  else [])

/-- `validateRule` (`src/detection/rule.ts`), with the checks in source
order (the error segments above are the source's sequential `errors.push`
blocks). The `action` and `language` fields are enumerations in this
embedding, so their runtime-invalid branches are vacuous; `type` and
`severity` are kept as strings, matching the JavaScript runtime boundary. -/
def validateRule (rule : DetectionRule) : ValidationResult :=
  let errors :=
    nameErrors rule ++ typeErrors rule ++ patternErrors rule ++ severityErrors rule
  { valid := errors.isEmpty, errors := errors, warnings := ruleWarnings rule }

/-- `RULE_ACTION_PRIORITY` (`src/types/detection.ts`): BLOCK 3, FLAG 2, LOG 1. -/
def RULE_ACTION_PRIORITY : RuleAction → Nat
  | .BLOCK => 3
  | .FLAG => 2
  | .LOG => 1

/-- `getMostRestrictiveAction` (`src/detection/rule.ts`): `reduce` over the
action list keeping the higher-priority action; `LOG` for the empty list. -/
def getMostRestrictiveAction : List RuleAction → RuleAction
  | [] => .LOG
  | a :: rest =>
      rest.foldl
        (fun most cur =>
          if RULE_ACTION_PRIORITY most < RULE_ACTION_PRIORITY cur then cur else most) a

/-! ## Applying rules (`src/detection/matcher.ts`, `applyRule`) -/

/-- Does a SARA/HOAX/MALWARE pattern look like a regex (leading `^` or a
`(` anywhere)? -/
def patternLooksRegex (pattern : List Char) : Bool :=
  (match pattern with
   | '^' :: _ => true
   | _ => false) || pattern.contains '('

/-- `applyRule`: dispatch on the rule type, then stamp every produced match
with the owning rule's id and name. -/
def applyRule (rule : DetectionRule) (text : List Char) : List RuleMatch :=
  if rule.enabled = false then []
  else
    let ms :=
      if rule.type = str "KEYWORD" then matchKeyword text rule.pattern
      else if rule.type = str "PATTERN" then matchPattern text rule.pattern
      else if rule.type = str "INJECTION" then
        matchPattern text rule.pattern ++ matchInjection text
      else if rule.type = str "JAILBREAK" then
        matchPattern text rule.pattern ++ matchJailbreak text
      else if rule.type = str "SARA" ∨ rule.type = str "HOAX"
          ∨ rule.type = str "MALWARE" then
        if patternLooksRegex rule.pattern then matchPattern text rule.pattern
        else matchKeyword text rule.pattern
      else []
    ms.map fun m => { m with ruleId := rule.id, ruleName := rule.name }

/-- `applyRules`: all matches of all rules, in rule order. -/
def applyRules (rules : List DetectionRule) (text : List Char) : List RuleMatch :=
  rules.foldl (fun acc rule => acc ++ applyRule rule text) []

/-! ## Indonesian keyword data (`src/detection/indonesian/keywords.ts`) -/

/-- Indonesian blacklist keywords. -/
def INDONESIAN_BLACKLIST_KEYWORDS : List (List Char) :=
  [str "bunuh", str "membunuh", str "pembunuhan", str "mati", str "racun",
   str "meracuni", str "senjata", str "bom", str "ledakan", str "teror",
   str "teroris", str "narkoba", str "ganja", str "sabu", str "kokain",
   str "heroin", str "obat terlarang", str "judi", str "perjudian",
   str "penipuan", str "menipu", str "pornografi", str "porno", str "cabul",
   str "asusila", str "meretas", str "hacking", str "bobol", str "membobol",
   str "carding", str "phishing"]

/-- Indonesian SARA terms. -/
def INDONESIAN_SARA_TERMS : List (List Char) :=
  [str "kafir", str "murtad", str "sesat", str "bidah", str "rasis",
   str "rasisme", str "diskriminasi", str "intoleran", str "intoleransi",
   str "benci", str "kebencian", str "ujaran kebencian", str "provokasi",
   str "hasut", str "menghasut", str "fitnah", str "memfitnah"]

/-- Indonesian jailbreak phrase variations. -/
def INDONESIAN_JAILBREAK_PATTERNS : List (List Char) :=
  [str "abaikan instruksi", str "abaikan semua instruksi",
   str "lupakan instruksi sebelumnya", str "lupakan aturan",
   str "tidak ada batasan", str "tanpa batasan", str "mode bebas",
   str "mode tanpa sensor", str "mode developer", str "mode admin",
   str "mode dewa", str "berpura-pura menjadi", str "anggap kamu adalah",
   str "kamu sekarang adalah", str "bertindak sebagai", str "peran baru",
   str "instruksi baru", str "aturan baru", str "jangan ikuti aturan",
   str "langgar aturan", str "bypass filter", str "lewati filter",
   str "matikan filter", str "nonaktifkan keamanan", str "hapus pembatasan"]

/-- Indonesian hoax/misinformation indicators. -/
def INDONESIAN_HOAX_INDICATORS : List (List Char) :=
  [str "hoax", str "hoaks", str "berita palsu", str "informasi palsu",
   str "kabar bohong", str "tidak benar", str "disinformasi",
   str "misinformasi", str "konspirasi", str "teori konspirasi"]

/-- The slang-to-standard-form map, as an association list in key order. -/
def INDONESIAN_SLANG_MAPPINGS : List (List Char × List Char) :=
  [(str "bundir", str "bunuh diri"), (str "gblk", str "goblok"),
   (str "bngst", str "bangsat"), (str "anjg", str "anjing"),
   (str "ajg", str "anjing"), (str "bgst", str "bangsat"),
   (str "kntl", str "kontol"), (str "mmk", str "memek"),
   (str "jncok", str "jancok"), (str "jnck", str "jancok"),
   (str "gele", str "ganja"), (str "cimeng", str "ganja"),
   (str "putaw", str "heroin"), (str "shabu", str "sabu"),
   (str "inex", str "ekstasi"), (str "abaiin", str "abaikan"),
   (str "lupain", str "lupakan"), (str "gausah", str "tidak usah"),
   (str "gausa", str "tidak usah")]

/-- `INDONESIAN_SLANG_MAPPINGS[word]` as a lookup. -/
def slangLookup (w : List Char) : Option (List Char) :=
  (INDONESIAN_SLANG_MAPPINGS.find? (fun p => p.1 = w)).map (fun p => p.2)

/-- `getAllIndonesianKeywords`: all harmful terms combined. -/
def getAllIndonesianKeywords : List (List Char) :=
  INDONESIAN_BLACKLIST_KEYWORDS ++ INDONESIAN_SARA_TERMS
    ++ INDONESIAN_JAILBREAK_PATTERNS ++ INDONESIAN_HOAX_INDICATORS
    ++ INDONESIAN_SLANG_MAPPINGS.map (fun p => p.1)

/-! ## Fuzzy matching pipeline (`src/detection/indonesian/fuzzy-matcher.ts`)

The source's `Partial<FuzzyMatchConfig>` merged over defaults is modelled as
a full configuration record with every field explicit. -/

/-- Fuzzy-matching configuration. -/
structure FuzzyMatchConfig where
  threshold : ℚ
  minWordLength : Nat
  maxWordLength : Nat
deriving DecidableEq, Repr

/-- `DEFAULT_SIMILARITY_THRESHOLD` is 0.75; default word lengths 3 and 50. -/
def DEFAULT_FUZZY_CONFIG : FuzzyMatchConfig :=
  { threshold := 3/4, minWordLength := 3, maxWordLength := 50 }

/-- Stable insertion of one scored target into a descending-by-similarity
list, equal scores keeping first-come order: models the JavaScript stable
`sort((a, b) => b.similarity - a.similarity)`. -/
def insertBySimilarity (x : List Char × ℚ) :
    List (List Char × ℚ) → List (List Char × ℚ)
  | [] => [x]
  | y :: t => if y.2 < x.2 then x :: y :: t else y :: insertBySimilarity x t

/-- `findFuzzyMatches`: targets at or above the threshold, sorted by
descending similarity. -/
def findFuzzyMatches (word : List Char) (targets : List (List Char))
    (config : FuzzyMatchConfig) : List (List Char × ℚ) :=
  if word.length < config.minWordLength ∨ config.maxWordLength < word.length then []
  else
    let ms := targets.filterMap fun t =>
      let s := similarity word t
      if config.threshold ≤ s then some (t, s) else none
    ms.foldl (fun acc x => insertBySimilarity x acc) []

/-- Result of `isSlangVariation`. The source's optional `similarity` field is
called `score` here to avoid shadowing the similarity function. -/
structure SlangResult where
  isSlang : Bool
  standardForm : Option (List Char)
  score : Option ℚ
deriving DecidableEq, Repr

/-- `isSlangVariation`: exact slang-map hit (similarity 1.0), else the best
fuzzy match against the slang keys. -/
def isSlangVariation (word : List Char) (config : FuzzyMatchConfig) : SlangResult :=
  let lowerWord := lower word
  match slangLookup lowerWord with
  | some std => { isSlang := true, standardForm := some std, score := some 1 }
  | none =>
      let slangKeys := INDONESIAN_SLANG_MAPPINGS.map (fun p => p.1)
      match findFuzzyMatches lowerWord slangKeys config with
      | best :: _ =>
          { isSlang := true, standardForm := slangLookup best.1, score := some best.2 }
      | [] => { isSlang := false, standardForm := none, score := none }

/-- Is this character matched by the tokenizer's `\w`? -/
def isWordChar (c : Char) : Bool := c.isAlphanum || c == '_'

/-- `tokenize`: maximal runs of word characters with their start offsets
(the source's `/\b\w+\b/g` scan). -/
def tokenize : List Char → Nat → List (List Char × Nat)
  | [], _ => []
  | c :: t, i =>
    if isWordChar c then
      let run := t.takeWhile isWordChar
      (c :: run, i) :: tokenize (t.drop run.length) (i + run.length + 1)
    else tokenize t (i + 1)
termination_by s _ => s.length
decreasing_by
  · have := List.length_drop (t.takeWhile isWordChar).length t
    simp at this ⊢
    omega
  · simp

/-- `findIndonesianFuzzyMatches`: per token, a slang match (ruleId
`indonesian-slang`) when the slang check fires at or above the threshold
(and with a JavaScript-truthy similarity), otherwise a generic fuzzy match
(ruleId `indonesian-fuzzy`) when the best corpus similarity is below 1. -/
def findIndonesianFuzzyMatches (text : List Char) (config : FuzzyMatchConfig) :
    List RuleMatch :=
  (tokenize text 0).foldl
    (fun acc wp =>
      let word := wp.1
      let position := wp.2
      let slangResult := isSlangVariation word config
      let slangHit : Bool :=
        slangResult.isSlang &&
          match slangResult.score with
          | some s => decide (s ≠ 0) && decide (config.threshold ≤ s)
          | none => false
      if slangHit then
        acc ++ [{ ruleId := str "indonesian-slang"
                  ruleName := str "Indonesian Slang Detection"
                  matchedText := word
                  position := position
                  confidence := slangResult.score.getD 0 }]
      else
        match findFuzzyMatches word getAllIndonesianKeywords config with
        | best :: _ =>
            if best.2 < 1 then
              acc ++ [{ ruleId := str "indonesian-fuzzy"
                        ruleName := str "Indonesian Fuzzy Match"
                        matchedText := word
                        position := position
                        confidence := best.2 }]
            else acc
        | [] => acc)
    []

/-! ## Detection engine (`src/detection/engine.ts`)

The engine class holds a rule map (insertion-ordered) and a configuration;
`analyzeInput` is a pure function of those plus the text and context, and is
embedded as such. Wall-clock `processingTimeMs` is modelled as `0`. -/

/-- Engine configuration with the source's defaults made explicit. -/
structure DetectionEngineConfig where
  enableFuzzyMatching : Bool
  fuzzyMatchConfig : FuzzyMatchConfig
deriving DecidableEq, Repr

/-- `DEFAULT_CONFIG`: fuzzy matching on, threshold 0.75, word length 3–50. -/
def DEFAULT_CONFIG : DetectionEngineConfig :=
  { enableFuzzyMatching := true, fuzzyMatchConfig := DEFAULT_FUZZY_CONFIG }

/-- Per-call analysis context. -/
structure AnalysisContext where
  language : CtxLanguage
  strictMode : Bool
deriving DecidableEq, Repr

/-- Does a rule's language scope match the detected language (for
non-`BOTH`, non-`MIXED` cases)? -/
def langEq : Language → CtxLanguage → Bool
  | .ID, .ID => true
  | .EN, .EN => true
  | _, _ => false

/-- `getApplicableRules`: enabled rules whose language scope covers the
detected language (`BOTH` always, anything when `MIXED`). -/
def getApplicableRules (rules : List DetectionRule) (language : CtxLanguage) :
    List DetectionRule :=
  rules.filter fun rule =>
    rule.enabled &&
      (rule.language == Language.BOTH || language == CtxLanguage.MIXED
        || langEq rule.language language)

/-- `determineAction`: collect the configured actions of the distinct
matched rule ids, append a synthesized BLOCK when a reserved built-in
ruleId is present, and reduce to the most restrictive action; `LOG` maps to
PASS / not harmful. -/
def determineAction (matchList : List RuleMatch) (rules : List DetectionRule) :
    RecommendedAction × Bool :=
  if matchList.isEmpty then (.PASS, false)
  else
    let matchedRuleIds := (matchList.map (fun m => m.ruleId)).eraseDups
    let actions := matchedRuleIds.foldl
      (fun acc rid =>
        match rules.find? (fun r => r.id = rid) with
        | some r => acc ++ [r.action]
        | none => acc) []
    let actions :=
      if matchList.any (fun m =>
          m.ruleId == str "injection-signature" || m.ruleId == str "jailbreak-pattern") then
        actions ++ [RuleAction.BLOCK]
      else actions
    if actions.isEmpty then (.PASS, false)
    else
      let mostRestrictive := getMostRestrictiveAction actions
      if mostRestrictive = RuleAction.LOG then (.PASS, false)
      else
        (match mostRestrictive with
         | .BLOCK => .BLOCK
         | .FLAG => .FLAG
         | .LOG => .PASS,
         mostRestrictive = RuleAction.BLOCK ∨ mostRestrictive = RuleAction.FLAG)

/-- `calculateConfidence`: mean match confidence plus a capped boost of
0.05 per match; `1.0` for no matches. -/
def calculateConfidence (matchList : List RuleMatch) : ℚ :=
  if matchList.length = 0 then 1
  else
    let avgConfidence := (matchList.map (fun m => m.confidence)).sum / (matchList.length : ℚ)
    let matchBoost := min ((matchList.length : ℚ) * (5/100)) (2/10)
    min (avgConfidence + matchBoost) 1

/-- `DetectionEngine.analyzeInput` as a pure function of the captured rule
snapshot, the configuration, the text and the context. -/
def analyzeInput (rules : List DetectionRule) (config : DetectionEngineConfig)
    (text : List Char) (context : AnalysisContext) : DetectionResult :=
  let applicableRules := getApplicableRules rules context.language
  let ms := applyRules applicableRules text
  let ms :=
    if config.enableFuzzyMatching
        ∧ (context.language = CtxLanguage.ID ∨ context.language = CtxLanguage.MIXED) then
      ms ++ findIndonesianFuzzyMatches text config.fuzzyMatchConfig
    else ms
  let act := determineAction ms applicableRules
  { isHarmful := act.2
    matchList := ms
    recommendedAction := act.1
    confidence := calculateConfidence ms
    processingTimeMs := 0 }

/-- `analyzeOutput` runs the identical analysis. -/
def analyzeOutput (rules : List DetectionRule) (config : DetectionEngineConfig)
    (text : List Char) (context : AnalysisContext) : DetectionResult :=
  analyzeInput rules config text context

/-- The engine's mutable state: its rule map, as an insertion-ordered list. -/
structure DetectionEngine where
  rules : List DetectionRule
  config : DetectionEngineConfig
deriving DecidableEq, Repr

/-- `Map.set` semantics: replace in place when the id exists, else append. -/
def mapSet (rules : List DetectionRule) (rule : DetectionRule) : List DetectionRule :=
  if rules.any (fun r => r.id = rule.id) then
    rules.map (fun r => if r.id = rule.id then rule else r)
  else rules ++ [rule]

/-- `DetectionEngine.addRule`: validate, throw (returning the error and the
untouched state) when invalid, else store. -/
def addRule (eng : DetectionEngine) (rule : DetectionRule) :
    DetectionEngine × Option (List Char) :=
  let validation := validateRule rule
  if validation.valid then
    ({ eng with rules := mapSet eng.rules rule }, none)
  else
    (eng, some (str "Invalid rule: " ++ (List.intercalate (str ", ") validation.errors)))

/-- `DetectionEngine.getRules`. -/
def getRules (eng : DetectionEngine) : List DetectionRule := eng.rules

/-! ## Pipelines (`src/filters/pre-filter.ts`, `src/filters/post-filter.ts`)

Both filters race `runAnalysisPipeline` against a `setTimeout` deadline and
fall back to a catch-all on a rejection. Real-time scheduling is not
representable in this embedding, so the race is modelled by an explicit
`PipeOutcome`: `completed` when the analysis promise resolves first,
`timedOut` when the deadline fires first (the promise then resolves with
the synthetic `timeout` stage result), and `failed` when the pipeline
rejects (the `catch` branch). The detection engine is dependency-injected
in the source; each `analyze` model therefore takes the engine's
`DetectionResult` for the analyzed text as an argument. Language detection
(`detectLanguage`) only feeds the engine's context and does not influence
the pipeline decision. `post-filter.ts` also contains a second, older copy
of `PreFilter` without the timeout pipeline; the `PreFilter` embedded here
is the one in `pre-filter.ts`, which the gateway and the tests import. -/

/-- Pre-filter statuses. -/
inductive PreFilterStatus where
  | PASS
  | BLOCK
deriving DecidableEq, Repr

/-- Post-filter statuses. -/
inductive PostFilterStatus where
  | PASS
  | FILTER
deriving DecidableEq, Repr

/-- Which event wins the pipeline race (see the section comment). -/
inductive PipeOutcome where
  | completed
  | timedOut
  | failed
deriving DecidableEq, Repr

/-- One pipeline stage record. -/
structure PipelineStageResult where
  stageName : List Char
  passed : Bool
  matchList : List RuleMatch
  durationMs : Nat
deriving DecidableEq, Repr

/-- Pre-filter options with the source defaults made explicit
(`maxProcessingTimeMs` 500, `confidenceThreshold` 0.7). -/
structure PreFilterOptions where
  maxProcessingTimeMs : Nat
  safeResponseMessage : List Char
  confidenceThreshold : ℚ
deriving DecidableEq, Repr

/-- The pre-filter's default options. -/
def DEFAULT_PRE_OPTIONS : PreFilterOptions :=
  { maxProcessingTimeMs := 500
    safeResponseMessage :=
      str "Maaf, permintaan Anda tidak dapat diproses karena melanggar kebijakan keamanan kami."
    confidenceThreshold := 7/10 }

/-- Pre-filter pipeline result. -/
structure PreFilterPipelineResult where
  stages : List PipelineStageResult
  totalDurationMs : Nat
  finalStatus : PreFilterStatus
  allMatches : List RuleMatch
deriving DecidableEq, Repr

/-- Pre-filter response (`filteredPrompt` and `safeResponse` are optional
fields in the source). -/
structure PreFilterResponse where
  requestId : List Char
  status : PreFilterStatus
  filteredPrompt : Option (List Char)
  safeResponse : Option (List Char)
  matchedRules : List RuleMatch
  processingTimeMs : Nat
deriving DecidableEq, Repr

/-- `PreFilter.runAnalysisPipeline`: language detection stage, detection
stage, then the final status: BLOCK when harmful, BLOCK when the confidence
is below the threshold and there is at least one match, else PASS. -/
def runAnalysisPipelinePre (confidenceThreshold : ℚ) (detectionResult : DetectionResult) :
    PreFilterPipelineResult :=
  let stages :=
    [{ stageName := str "language_detection", passed := true, matchList := [],
       durationMs := 0 },
     { stageName := str "detection_engine", passed := !detectionResult.isHarmful,
       matchList := detectionResult.matchList, durationMs := 0 }]
  let allMatches := detectionResult.matchList
  let finalStatus :=
    if detectionResult.isHarmful then PreFilterStatus.BLOCK
    else if detectionResult.confidence < confidenceThreshold ∧ 0 < allMatches.length then
      PreFilterStatus.BLOCK
    else PreFilterStatus.PASS
  { stages := stages, totalDurationMs := 0, finalStatus := finalStatus,
    allMatches := allMatches }

/-- The synthetic result the timeout handler resolves with (fail-safe
BLOCK). -/
def timeoutPipelineResultPre (timeoutMs : Nat) : PreFilterPipelineResult :=
  { stages :=
      [{ stageName := str "timeout", passed := false, matchList := [],
         durationMs := timeoutMs }],
    totalDurationMs := timeoutMs,
    finalStatus := PreFilterStatus.BLOCK,
    allMatches := [] }

/-- `PreFilter.buildResponse`. -/
def buildResponsePre (opts : PreFilterOptions) (requestId : List Char)
    (pipelineResult : PreFilterPipelineResult) (originalPrompt : List Char) :
    PreFilterResponse :=
  if pipelineResult.finalStatus = PreFilterStatus.PASS then
    { requestId := requestId
      status := PreFilterStatus.PASS
      filteredPrompt := some originalPrompt
      safeResponse := none
      matchedRules := pipelineResult.allMatches
      processingTimeMs := pipelineResult.totalDurationMs }
  else
    { requestId := requestId
      status := PreFilterStatus.BLOCK
      filteredPrompt := none
      safeResponse := some opts.safeResponseMessage
      matchedRules := pipelineResult.allMatches
      processingTimeMs := pipelineResult.totalDurationMs }

/-- `PreFilter.analyze`: race the pipeline against the deadline, build the
response from whichever result the promise resolves with, and fall back to
the blocking catch response on a rejection. -/
def preFilterAnalyze (opts : PreFilterOptions) (outcome : PipeOutcome)
    (detectionResult : DetectionResult) (requestId prompt : List Char) :
    PreFilterResponse :=
  match outcome with
  | .completed =>
      buildResponsePre opts requestId
        (runAnalysisPipelinePre opts.confidenceThreshold detectionResult) prompt
  | .timedOut =>
      buildResponsePre opts requestId
        (timeoutPipelineResultPre opts.maxProcessingTimeMs) prompt
  | .failed =>
      { requestId := requestId
        status := PreFilterStatus.BLOCK
        filteredPrompt := none
        safeResponse :=
          some (str "Terjadi kesalahan dalam memproses permintaan Anda. Silakan coba lagi.")
        matchedRules := []
        processingTimeMs := 0 }

/-- Output content categories of the post-filter. -/
inductive OutputCategory where
  | HOAX
  | SARA
  | MALWARE
  | ILLEGAL
  | SAFE
deriving DecidableEq, Repr

/-- JavaScript `hay.includes(needle)`. -/
def jsIncludes (hay needle : List Char) : Bool :=
  (jsIndexOf hay needle 0).isSome

/-- `PostFilter.categorizeMatch`: inspect the lowercased rule name and id
for category keywords; unknown harmful matches default to ILLEGAL. -/
def categorizeMatch (m : RuleMatch) : OutputCategory :=
  let ruleName := lower m.ruleName
  let ruleId := lower m.ruleId
  if jsIncludes ruleName (str "hoax") || jsIncludes ruleName (str "hoaks")
      || jsIncludes ruleId (str "hoax") then .HOAX
  else if jsIncludes ruleName (str "sara") || jsIncludes ruleId (str "sara") then .SARA
  else if jsIncludes ruleName (str "malware") || jsIncludes ruleName (str "virus")
      || jsIncludes ruleId (str "malware") then .MALWARE
  else if jsIncludes ruleName (str "illegal") || jsIncludes ruleName (str "blacklist")
      || jsIncludes ruleId (str "illegal") then .ILLEGAL
  else .ILLEGAL

/-- The post-filter's fixed safe-response messages. -/
def SAFE_RESPONSE_HOAX : List Char :=
  str "Maaf, respons ini tidak dapat ditampilkan karena mengandung informasi yang belum terverifikasi."

/-- Safe response for SARA content. -/
def SAFE_RESPONSE_SARA : List Char :=
  str "Maaf, respons ini tidak dapat ditampilkan karena melanggar kebijakan konten terkait SARA."

/-- Safe response for malware content. -/
def SAFE_RESPONSE_MALWARE : List Char :=
  str "Maaf, respons ini tidak dapat ditampilkan karena mengandung konten berbahaya."

/-- Safe response for illegal content. -/
def SAFE_RESPONSE_ILLEGAL : List Char :=
  str "Maaf, respons ini tidak dapat ditampilkan karena melanggar kebijakan konten."

/-- The default safe response (constructor-overridable). -/
def SAFE_RESPONSE_DEFAULT : List Char :=
  str "Maaf, respons tidak dapat ditampilkan karena melanggar kebijakan konten kami."

/-- Post-filter options; `safeResponseDefault` is `safeResponses.DEFAULT`
after the constructor's optional override. -/
structure PostFilterOptions where
  maxProcessingTimeMs : Nat
  confidenceThreshold : ℚ
  safeResponseDefault : List Char
deriving DecidableEq, Repr

/-- The post-filter's default options. -/
def DEFAULT_POST_OPTIONS : PostFilterOptions :=
  { maxProcessingTimeMs := 500
    confidenceThreshold := 7/10
    safeResponseDefault := SAFE_RESPONSE_DEFAULT }

/-- `PostFilter.getSafeResponse`: one consolidated message, by fixed
priority MALWARE > ILLEGAL > SARA > HOAX. -/
def getSafeResponse (opts : PostFilterOptions) (categories : List OutputCategory) :
    List Char :=
  if categories.contains OutputCategory.MALWARE then SAFE_RESPONSE_MALWARE
  else if categories.contains OutputCategory.ILLEGAL then SAFE_RESPONSE_ILLEGAL
  else if categories.contains OutputCategory.SARA then SAFE_RESPONSE_SARA
  else if categories.contains OutputCategory.HOAX then SAFE_RESPONSE_HOAX
  else opts.safeResponseDefault

/-- Post-filter pipeline result. -/
structure PostFilterPipelineResult where
  stages : List PipelineStageResult
  totalDurationMs : Nat
  finalStatus : PostFilterStatus
  allMatches : List RuleMatch
  detectedCategories : List OutputCategory
deriving DecidableEq, Repr

/-- Post-filter response. -/
structure PostFilterResponse where
  requestId : List Char
  status : PostFilterStatus
  finalOutput : List Char
  matchedRules : List RuleMatch
  processingTimeMs : Nat
deriving DecidableEq, Repr

/-- `PostFilter.runAnalysisPipeline`: categorize the matches and decide the
final status (FILTER when harmful, FILTER when under-confident with at
least one match, else PASS). -/
def runAnalysisPipelinePost (confidenceThreshold : ℚ)
    (detectionResult : DetectionResult) : PostFilterPipelineResult :=
  let detectedCategories := detectionResult.matchList.foldl
    (fun acc m =>
      let category := categorizeMatch m
      if category ≠ OutputCategory.SAFE ∧ ¬ (acc.contains category) then acc ++ [category]
      else acc) []
  let allMatches := detectionResult.matchList
  let finalStatus :=
    if detectionResult.isHarmful then PostFilterStatus.FILTER
    else if detectionResult.confidence < confidenceThreshold ∧ 0 < allMatches.length then
      PostFilterStatus.FILTER
    else PostFilterStatus.PASS
  { stages :=
      [{ stageName := str "language_detection", passed := true, matchList := [],
         durationMs := 0 },
       { stageName := str "detection_engine", passed := !detectionResult.isHarmful,
         matchList := detectionResult.matchList, durationMs := 0 }]
    totalDurationMs := 0
    finalStatus := finalStatus
    allMatches := allMatches
    detectedCategories := detectedCategories }

/-- The synthetic result the post-filter's timeout handler resolves with
(fail-safe FILTER). -/
def timeoutPipelineResultPost (timeoutMs : Nat) : PostFilterPipelineResult :=
  { stages :=
      [{ stageName := str "timeout", passed := false, matchList := [],
         durationMs := timeoutMs }],
    totalDurationMs := timeoutMs,
    finalStatus := PostFilterStatus.FILTER,
    allMatches := [],
    detectedCategories := [] }

/-- `PostFilter.buildResponse`: PASS echoes the original output; FILTER
substitutes the consolidated safe response. -/
def buildResponsePost (opts : PostFilterOptions) (requestId : List Char)
    (pipelineResult : PostFilterPipelineResult) (originalOutput : List Char) :
    PostFilterResponse :=
  if pipelineResult.finalStatus = PostFilterStatus.PASS then
    { requestId := requestId
      status := PostFilterStatus.PASS
      finalOutput := originalOutput
      matchedRules := pipelineResult.allMatches
      processingTimeMs := pipelineResult.totalDurationMs }
  else
    { requestId := requestId
      status := PostFilterStatus.FILTER
      finalOutput := getSafeResponse opts pipelineResult.detectedCategories
      matchedRules := pipelineResult.allMatches
      processingTimeMs := pipelineResult.totalDurationMs }

/-- `PostFilter.analyze`. -/
def postFilterAnalyze (opts : PostFilterOptions) (outcome : PipeOutcome)
    (detectionResult : DetectionResult) (requestId output : List Char) :
    PostFilterResponse :=
  match outcome with
  | .completed =>
      buildResponsePost opts requestId
        (runAnalysisPipelinePost opts.confidenceThreshold detectionResult) output
  | .timedOut =>
      buildResponsePost opts requestId
        (timeoutPipelineResultPost opts.maxProcessingTimeMs) output
  | .failed =>
      { requestId := requestId
        status := PostFilterStatus.FILTER
        finalOutput :=
          str "Terjadi kesalahan dalam memproses respons. Silakan coba lagi."
        matchedRules := []
        processingTimeMs := 0 }

/-! ## Properties of the resolver -/

theorem foldl_mostRestrictive (rest : List RuleAction) :
    ∀ a, rest.foldl
        (fun most cur =>
          if RULE_ACTION_PRIORITY most < RULE_ACTION_PRIORITY cur then cur else most) a =
      if RuleAction.BLOCK = a ∨ RuleAction.BLOCK ∈ rest then RuleAction.BLOCK
      else if RuleAction.FLAG = a ∨ RuleAction.FLAG ∈ rest then RuleAction.FLAG
      else RuleAction.LOG := by
  induction rest with
  | nil => intro a; cases a <;> simp
  | cons b t ih =>
      intro a
      rw [List.foldl_cons, ih]
      cases a <;> cases b <;> simp [RULE_ACTION_PRIORITY, List.mem_cons]

/-- `getMostRestrictiveAction` selects BLOCK, else FLAG, else LOG. -/
theorem getMostRestrictiveAction_eq (l : List RuleAction) (h : l ≠ []) :
    getMostRestrictiveAction l =
      if RuleAction.BLOCK ∈ l then RuleAction.BLOCK
      else if RuleAction.FLAG ∈ l then RuleAction.FLAG
      else RuleAction.LOG := by
  cases l with
  | nil => exact absurd rfl h
  | cons a rest =>
      rw [getMostRestrictiveAction, foldl_mostRestrictive]
      simp [List.mem_cons]

/-- Every action's priority is at most 3 = priority BLOCK. -/
theorem priority_le_three (a : RuleAction) : RULE_ACTION_PRIORITY a ≤ 3 := by
  cases a <;> simp [RULE_ACTION_PRIORITY]

/-- C6. For every non-empty action list, `getMostRestrictiveAction` returns
the action with the maximum priority under BLOCK:3, FLAG:2, LOG:1; the
reduction is order-independent (permutation-invariant), and any list
containing BLOCK — in particular any list extended with a BLOCK — resolves
to BLOCK. -/
theorem getMostRestrictiveAction_spec (l : List RuleAction) (h : l ≠ []) :
    (getMostRestrictiveAction l ∈ l
      ∧ ∀ a ∈ l, RULE_ACTION_PRIORITY a ≤ RULE_ACTION_PRIORITY (getMostRestrictiveAction l))
    ∧ (∀ l', l.Perm l' → getMostRestrictiveAction l = getMostRestrictiveAction l')
    ∧ (∀ l', RuleAction.BLOCK ∈ l' → getMostRestrictiveAction l' = RuleAction.BLOCK) := by
  have hlogall : ¬ (RuleAction.BLOCK ∈ l) → ¬ (RuleAction.FLAG ∈ l) →
      ∀ x ∈ l, x = RuleAction.LOG := by
    intro h1 h2 x hx
    cases x with
    | BLOCK => exact absurd hx h1
    | FLAG => exact absurd hx h2
    | LOG => rfl
  refine ⟨⟨?_, ?_⟩, ?_, ?_⟩
  · rw [getMostRestrictiveAction_eq l h]
    split_ifs with h1 h2
    · exact h1
    · exact h2
    · cases l with
      | nil => exact absurd rfl h
      | cons a rest =>
          have := hlogall h1 h2 a (List.mem_cons_self a rest)
          rw [← this]
          exact List.mem_cons_self a rest
  · intro a ha
    rw [getMostRestrictiveAction_eq l h]
    split_ifs with h1 h2
    · exact priority_le_three a
    · cases a with
      | BLOCK => exact absurd ha h1
      | FLAG => simp [RULE_ACTION_PRIORITY]
      | LOG => simp [RULE_ACTION_PRIORITY]
    · have := hlogall h1 h2 a ha
      subst this
      simp [RULE_ACTION_PRIORITY]
  · intro l' hp
    have h' : l' ≠ [] := by
      intro hnil
      subst hnil
      exact h hp.eq_nil
    rw [getMostRestrictiveAction_eq l h, getMostRestrictiveAction_eq l' h']
    simp only [hp.mem_iff]
  · intro l' hB
    rw [getMostRestrictiveAction_eq l' (List.ne_nil_of_mem hB), if_pos hB]

/-- Witness for C6 at the concrete list `[LOG, BLOCK]`. -/
theorem getMostRestrictiveAction_spec_witness :
    (([RuleAction.LOG, RuleAction.BLOCK] : List RuleAction) ≠ [])
    ∧ ((getMostRestrictiveAction [RuleAction.LOG, RuleAction.BLOCK]
          ∈ ([RuleAction.LOG, RuleAction.BLOCK] : List RuleAction)
        ∧ ∀ a ∈ ([RuleAction.LOG, RuleAction.BLOCK] : List RuleAction),
            RULE_ACTION_PRIORITY a ≤
              RULE_ACTION_PRIORITY (getMostRestrictiveAction [RuleAction.LOG, RuleAction.BLOCK]))
      ∧ (∀ l', ([RuleAction.LOG, RuleAction.BLOCK] : List RuleAction).Perm l' →
          getMostRestrictiveAction [RuleAction.LOG, RuleAction.BLOCK] =
            getMostRestrictiveAction l')
      ∧ (∀ l', RuleAction.BLOCK ∈ l' →
          getMostRestrictiveAction l' = RuleAction.BLOCK)) :=
  ⟨by decide, getMostRestrictiveAction_spec [RuleAction.LOG, RuleAction.BLOCK] (by decide)⟩

/-- C7. The confidence is the arithmetic mean of the match confidences plus
`min 0.2 (0.05 × matchCount)`, capped at 1; the empty match list yields
exactly 1. -/
theorem calculateConfidence_formula (l : List RuleMatch) :
    (l ≠ [] → calculateConfidence l =
      min ((l.map (fun m => m.confidence)).sum / (l.length : ℚ)
          + min (2/10) ((5/100) * (l.length : ℚ))) 1)
    ∧ calculateConfidence [] = 1 := by
  constructor
  · intro h
    have hlen : l.length ≠ 0 := by simpa using h
    simp only [calculateConfidence, if_neg hlen]
    rw [min_comm ((l.length : ℚ) * (5/100)) (2/10), mul_comm]
  · rfl

/-- A sample match used by concrete witnesses below. -/
def sampleConfidenceMatch : RuleMatch :=
  { ruleId := str "uncertain-rule"
    ruleName := str "Uncertain Rule"
    matchedText := str "x"
    position := 0
    confidence := 1/2 }

/-- Witness for C7 at a concrete one-element match list. -/
theorem calculateConfidence_formula_witness :
    (([sampleConfidenceMatch] : List RuleMatch) ≠ [])
    ∧ calculateConfidence [sampleConfidenceMatch] =
        min (([sampleConfidenceMatch].map (fun m => m.confidence)).sum
            / (([sampleConfidenceMatch] : List RuleMatch).length : ℚ)
          + min (2/10) ((5/100) * (([sampleConfidenceMatch] : List RuleMatch).length : ℚ))) 1 :=
  ⟨by decide, (calculateConfidence_formula [sampleConfidenceMatch]).1 (by decide)⟩

/-! ## Pipeline claims -/

/-- C2. Whenever the deadline fires before the analysis promise resolves
(the `timedOut` race outcome — in particular for any configured
`maxProcessingTimeMs`, including 0), both filters return the fail-safe
status — BLOCK for the pre-filter, FILTER for the post-filter — for every
input and every engine result: unevaluated content is never passed (the
pre-filter returns no `filteredPrompt`, the post-filter substitutes its
fixed default safe response). -/
theorem timeout_failsafe (preOpts : PreFilterOptions) (postOpts : PostFilterOptions)
    (dr dr' : DetectionResult) (reqId prompt reqId' output : List Char) :
    (preFilterAnalyze preOpts PipeOutcome.timedOut dr reqId prompt).status
        = PreFilterStatus.BLOCK
    ∧ (preFilterAnalyze preOpts PipeOutcome.timedOut dr reqId prompt).filteredPrompt = none
    ∧ (postFilterAnalyze postOpts PipeOutcome.timedOut dr' reqId' output).status
        = PostFilterStatus.FILTER
    ∧ (postFilterAnalyze postOpts PipeOutcome.timedOut dr' reqId' output).finalOutput
        = postOpts.safeResponseDefault := by
  refine ⟨?_, ?_, ?_, ?_⟩ <;>
    simp [preFilterAnalyze, postFilterAnalyze, buildResponsePre, buildResponsePost,
      timeoutPipelineResultPre, timeoutPipelineResultPost, getSafeResponse]

/-- C3. For both filters, a completed analysis whose detection result is not
harmful but has at least one match and a confidence strictly below the
configured threshold still blocks/filters — uncertain evidence never
passes. -/
theorem uncertain_defaults_to_unsafe (preOpts : PreFilterOptions)
    (postOpts : PostFilterOptions) (dr : DetectionResult)
    (reqId prompt reqId' output : List Char)
    (h1 : dr.isHarmful = false) (h2 : dr.matchList ≠ [])
    (h3 : dr.confidence < preOpts.confidenceThreshold)
    (h4 : dr.confidence < postOpts.confidenceThreshold) :
    (preFilterAnalyze preOpts PipeOutcome.completed dr reqId prompt).status
        = PreFilterStatus.BLOCK
    ∧ (postFilterAnalyze postOpts PipeOutcome.completed dr reqId' output).status
        = PostFilterStatus.FILTER := by
  have hlen : 0 < dr.matchList.length := List.length_pos.mpr h2
  constructor
  · simp [preFilterAnalyze, buildResponsePre, runAnalysisPipelinePre, h1, h3, hlen]
  · simp [postFilterAnalyze, buildResponsePost, runAnalysisPipelinePost, h1, h4, hlen]

/-- A detection result with one low-confidence match, as an engine stub
would produce it. -/
def sampleUncertainResult : DetectionResult :=
  { isHarmful := false
    matchList := [sampleConfidenceMatch]
    recommendedAction := RecommendedAction.PASS
    confidence := 1/2
    processingTimeMs := 0 }

/-- Witness for C3 at a concrete low-confidence detection result and the
default thresholds. -/
theorem uncertain_defaults_to_unsafe_witness :
    (sampleUncertainResult.isHarmful = false
      ∧ sampleUncertainResult.matchList ≠ []
      ∧ sampleUncertainResult.confidence < DEFAULT_PRE_OPTIONS.confidenceThreshold
      ∧ sampleUncertainResult.confidence < DEFAULT_POST_OPTIONS.confidenceThreshold)
    ∧ (preFilterAnalyze DEFAULT_PRE_OPTIONS PipeOutcome.completed sampleUncertainResult
          (str "req1") (str "hello")).status = PreFilterStatus.BLOCK
    ∧ (postFilterAnalyze DEFAULT_POST_OPTIONS PipeOutcome.completed sampleUncertainResult
          (str "req2") (str "hello")).status = PostFilterStatus.FILTER :=
  ⟨⟨by decide, by decide,
    by norm_num [sampleUncertainResult, DEFAULT_PRE_OPTIONS],
    by norm_num [sampleUncertainResult, DEFAULT_POST_OPTIONS]⟩,
   uncertain_defaults_to_unsafe DEFAULT_PRE_OPTIONS DEFAULT_POST_OPTIONS
     sampleUncertainResult (str "req1") (str "hello") (str "req2") (str "hello")
     (by decide) (by decide)
     (by norm_num [sampleUncertainResult, DEFAULT_PRE_OPTIONS])
     (by norm_num [sampleUncertainResult, DEFAULT_POST_OPTIONS])⟩

/-! ## Rule-store claims -/

/-- C9. For every rule failing validation — blank name, blank pattern,
invalid type, or a non-compiling regex on a PATTERN/INJECTION/JAILBREAK
rule — `addRule` reports a validation error and leaves the engine's stored
ruleset exactly as it was. -/
theorem addRule_rejects_and_preserves (eng : DetectionEngine) (rule : DetectionRule)
    (h : (jsTrim rule.name).length = 0
      ∨ (jsTrim rule.pattern).length = 0
      ∨ ¬ (rule.type ∈ VALID_RULE_TYPES)
      ∨ ((rule.type = str "PATTERN" ∨ rule.type = str "INJECTION"
            ∨ rule.type = str "JAILBREAK")
          ∧ validateRegexPattern rule.pattern = false)) :
    (validateRule rule).valid = false
    ∧ (addRule eng rule).2.isSome = true
    ∧ (addRule eng rule).1 = eng
    ∧ getRules (addRule eng rule).1 = getRules eng := by
  have herr : (validateRule rule).errors ≠ [] := by
    have hdef : (validateRule rule).errors =
        nameErrors rule ++ typeErrors rule ++ patternErrors rule ++ severityErrors rule := rfl
    rw [hdef]
    rcases h with h | h | h | h
    · have : nameErrors rule ≠ [] := by
        unfold nameErrors
        rw [if_pos (Or.inr h)]
        simp
      simp only [ne_eq, List.append_eq_nil]
      tauto
    · have : patternErrors rule ≠ [] := by
        unfold patternErrors
        rw [if_pos (Or.inr h)]
        simp
      simp only [ne_eq, List.append_eq_nil]
      tauto
    · have : typeErrors rule ≠ [] := by
        unfold typeErrors
        split_ifs <;> simp
      simp only [ne_eq, List.append_eq_nil]
      tauto
    · have : patternErrors rule ≠ [] := by
        unfold patternErrors
        split_ifs <;> simp
      simp only [ne_eq, List.append_eq_nil]
      tauto
  have hval : (validateRule rule).valid = false := by
    have hve : (validateRule rule).valid = (validateRule rule).errors.isEmpty := rfl
    rw [hve]
    cases he : (validateRule rule).errors with
    | nil => exact absurd he herr
    | cons a t => simp
  have hadd : addRule eng rule = (eng, some (str "Invalid rule: "
      ++ (List.intercalate (str ", ") (validateRule rule).errors))) := by
    simp [addRule, hval]
  exact ⟨hval, by rw [hadd]; rfl, by rw [hadd], by rw [hadd]⟩

/-- A rule with a non-compiling regular expression and an otherwise valid
shape. -/
def badRegexRule : DetectionRule :=
  { id := str "bad1"
    name := str "Broken Pattern Rule"
    type := str "PATTERN"
    pattern := str "("
    action := RuleAction.BLOCK
    severity := str "HIGH"
    language := Language.BOTH
    enabled := true
    version := 1 }

/-- An engine holding one rule, used to check state preservation. -/
def sampleEngine : DetectionEngine :=
  { rules :=
      [{ id := str "ok1", name := str "Existing Rule", type := str "KEYWORD",
         pattern := str "badword", action := RuleAction.BLOCK, severity := str "MEDIUM",
         language := Language.BOTH, enabled := true, version := 1 }],
    config := DEFAULT_CONFIG }

/-- Witness for C9: adding a rule whose regex does not compile fails and
leaves the one-rule engine unchanged. -/
theorem addRule_rejects_and_preserves_witness :
    ((jsTrim badRegexRule.name).length = 0
      ∨ (jsTrim badRegexRule.pattern).length = 0
      ∨ ¬ (badRegexRule.type ∈ VALID_RULE_TYPES)
      ∨ ((badRegexRule.type = str "PATTERN" ∨ badRegexRule.type = str "INJECTION"
            ∨ badRegexRule.type = str "JAILBREAK")
          ∧ validateRegexPattern badRegexRule.pattern = false))
    ∧ (validateRule badRegexRule).valid = false
    ∧ (addRule sampleEngine badRegexRule).2.isSome = true
    ∧ (addRule sampleEngine badRegexRule).1 = sampleEngine
    ∧ getRules (addRule sampleEngine badRegexRule).1 = getRules sampleEngine :=
  ⟨by decide,
   (addRule_rejects_and_preserves sampleEngine badRegexRule (by decide)).1,
   (addRule_rejects_and_preserves sampleEngine badRegexRule (by decide)).2.1,
   (addRule_rejects_and_preserves sampleEngine badRegexRule (by decide)).2.2.1,
   (addRule_rejects_and_preserves sampleEngine badRegexRule (by decide)).2.2.2⟩

/-- Witness for C5 at keyword "a": its doubling yields two overlapping
matches. -/
theorem matchKeyword_reports_all_occurrences_witness :
    nonBlank (str "a") = true
    ∧ 2 ≤ (matchKeyword (str "a" ++ str "a") (str "a")).length :=
  ⟨by decide,
   (matchKeyword_reports_all_occurrences (str "a") (str "a") (by decide)).2.2.2⟩

/-- Witness for C10 at the concrete text "jailbreak": the first reported
match carries the reserved ruleId and sits at the first occurrence. -/
theorem builtin_signatures_first_occurrence_witness :
    (matchJailbreak (str "jailbreak") ≠ [])
    ∧ ((matchJailbreak (str "jailbreak")).head!.ruleId = str "jailbreak-pattern"
      ∧ ∃ pat ∈ JAILBREAK_PATTERNS,
          matchesPref pat
              ((str "jailbreak").drop (matchJailbreak (str "jailbreak")).head!.position)
            = true
          ∧ ∀ j, j < (matchJailbreak (str "jailbreak")).head!.position →
              matchesPref pat ((str "jailbreak").drop j) = false) := by
  have hne : matchJailbreak (str "jailbreak") ≠ [] := by decide
  exact ⟨hne,
    (builtin_signatures_first_occurrence_only (str "jailbreak")).2.2.2 _
      (List.head!_mem_self hne)⟩

/-! ## C1: built-in signatures and the resolver -/

/-- C1 (amended). The built-in libraries produce matches carrying the
reserved ruleIds with fixed confidences 0.9 / 0.85, and the resolver maps
any match set containing a reserved ruleId to BLOCK with isHarmful true
regardless of the rules' configured actions; however `applyRule` overwrites
the ruleId and ruleName of every match it returns with the owning user
rule's id and name, so matches reaching the resolver through an enabled
INJECTION/JAILBREAK rule carry the user rule's id and resolve by the user
rule's configured action instead. -/
theorem builtin_signature_resolution_amended :
    (∀ text m, m ∈ matchInjection text →
        m.ruleId = str "injection-signature" ∧ m.confidence = 9/10)
    ∧ (∀ text m, m ∈ matchJailbreak text →
        m.ruleId = str "jailbreak-pattern" ∧ m.confidence = 17/20)
    ∧ (∀ (ms : List RuleMatch) (rules : List DetectionRule),
        (∃ m ∈ ms, m.ruleId = str "injection-signature"
            ∨ m.ruleId = str "jailbreak-pattern") →
        determineAction ms rules = (RecommendedAction.BLOCK, true))
    ∧ (∀ rule text m, m ∈ applyRule rule text →
        m.ruleId = rule.id ∧ m.ruleName = rule.name) := by
  refine ⟨?_, ?_, ?_, ?_⟩
  · intro text m hm
    rw [matchInjection, List.mem_filterMap] at hm
    obtain ⟨sig, _, heq⟩ := hm
    rw [Option.map_eq_some'] at heq
    obtain ⟨i, _, hmk⟩ := heq
    subst hmk
    exact ⟨rfl, rfl⟩
  · intro text m hm
    rw [matchJailbreak, List.mem_filterMap] at hm
    obtain ⟨pat, _, heq⟩ := hm
    rw [Option.map_eq_some'] at heq
    obtain ⟨i, _, hmk⟩ := heq
    subst hmk
    exact ⟨rfl, rfl⟩
  · rintro ms rules ⟨m, hm, hrid⟩
    rcases hms : ms with _ | ⟨m0, ms'⟩
    · subst hms
      simp at hm
    · subst hms
      have hany : (m0 :: ms').any (fun m =>
          m.ruleId == str "injection-signature" || m.ruleId == str "jailbreak-pattern")
          = true := by
        rw [List.any_eq_true]
        refine ⟨m, hm, ?_⟩
        rcases hrid with h | h <;> simp [h]
      have hval : (if (m0 :: ms').any (fun m =>
            m.ruleId == str "injection-signature" || m.ruleId == str "jailbreak-pattern") then
          (((m0 :: ms').map (fun m => m.ruleId)).eraseDups.foldl
            (fun acc rid =>
              match rules.find? (fun r => r.id = rid) with
              | some r => acc ++ [r.action]
              | none => acc) []) ++ [RuleAction.BLOCK]
        else
          ((m0 :: ms').map (fun m => m.ruleId)).eraseDups.foldl
            (fun acc rid =>
              match rules.find? (fun r => r.id = rid) with
              | some r => acc ++ [r.action]
              | none => acc) []) =
          (((m0 :: ms').map (fun m => m.ruleId)).eraseDups.foldl
            (fun acc rid =>
              match rules.find? (fun r => r.id = rid) with
              | some r => acc ++ [r.action]
              | none => acc) []) ++ [RuleAction.BLOCK] := by
        rw [if_pos hany]
      have hBmem : RuleAction.BLOCK ∈
          (((m0 :: ms').map (fun m => m.ruleId)).eraseDups.foldl
            (fun acc rid =>
              match rules.find? (fun r => r.id = rid) with
              | some r => acc ++ [r.action]
              | none => acc) []) ++ [RuleAction.BLOCK] := by
        simp
      have hMR := getMostRestrictiveAction_eq _ (List.ne_nil_of_mem hBmem)
      rw [if_pos hBmem] at hMR
      simp only [determineAction, List.isEmpty_cons, hval]
      rw [hMR]
      simp [List.isEmpty_iff]
  · intro rule text m hm
    unfold applyRule at hm
    by_cases hen : rule.enabled = false
    · rw [if_pos hen] at hm
      simp at hm
    · rw [if_neg hen] at hm
      simp only [List.mem_map] at hm
      obtain ⟨m', _, heq⟩ := hm
      subst heq
      exact ⟨rfl, rfl⟩

/-- A match with the reserved injection ruleId, as the built-in library
produces it. -/
def reservedInjectionMatch : RuleMatch :=
  { ruleId := str "injection-signature"
    ruleName := str "Injection Signature"
    matchedText := str "x"
    position := 0
    confidence := 9/10 }

/-- Witness for C1 (amended): a match set holding one reserved-ruleId match
resolves to BLOCK/harmful even against an empty ruleset. -/
theorem builtin_signature_resolution_witness :
    (∃ m ∈ [reservedInjectionMatch],
      m.ruleId = str "injection-signature" ∨ m.ruleId = str "jailbreak-pattern")
    ∧ determineAction [reservedInjectionMatch] [] = (RecommendedAction.BLOCK, true) := by
  have hex : ∃ m ∈ [reservedInjectionMatch],
      m.ruleId = str "injection-signature" ∨ m.ruleId = str "jailbreak-pattern" :=
    ⟨reservedInjectionMatch, List.mem_singleton_self _, Or.inl rfl⟩
  exact ⟨hex, builtin_signature_resolution_amended.2.2.1 _ [] hex⟩

/-- An enabled INJECTION rule whose configured action is LOG. -/
def logInjectionRule : DetectionRule :=
  { id := str "r1"
    name := str "Log-only Injection Rule"
    type := str "INJECTION"
    pattern := str "qqq"
    action := RuleAction.LOG
    severity := str "HIGH"
    language := Language.BOTH
    enabled := true
    version := 1 }

/-- C1 counterexample: against an enabled INJECTION rule configured with
action LOG, the text "system:" fires a built-in injection signature, yet
every match returned by the engine carries the user rule's id `r1` (not
the reserved `injection-signature`) and the resolver recommends PASS with
isHarmful false — not the BLOCK the claim requires. -/
theorem builtin_signature_resolution_counterexample :
    (matchInjection (str "system:")).length = 1
    ∧ (analyzeInput [logInjectionRule] DEFAULT_CONFIG (str "system:")
        { language := CtxLanguage.EN, strictMode := false }).recommendedAction
        = RecommendedAction.PASS
    ∧ (analyzeInput [logInjectionRule] DEFAULT_CONFIG (str "system:")
        { language := CtxLanguage.EN, strictMode := false }).isHarmful = false
    ∧ (analyzeInput [logInjectionRule] DEFAULT_CONFIG (str "system:")
        { language := CtxLanguage.EN, strictMode := false }).matchList ≠ []
    ∧ ∀ m ∈ (analyzeInput [logInjectionRule] DEFAULT_CONFIG (str "system:")
        { language := CtxLanguage.EN, strictMode := false }).matchList,
        m.ruleId = str "r1" :=
  ⟨by decide, by decide, by decide, by decide, by decide⟩

/-! ## C4: response payload contents -/

/-- C4 (amended). On PASS both filters return the original text unchanged;
on block/filter the user-facing text (pre-filter `safeResponse`,
post-filter `finalOutput`) is one of the fixed safe-response messages (or
the configured default / processing-error message), chosen independently of
the analyzed text — but the response's `matchedRules` field does carry the
produced matches, including rule names and matched substrings, for every
completed analysis. -/
theorem response_payload_amended (preOpts : PreFilterOptions)
    (postOpts : PostFilterOptions) (outcome : PipeOutcome) (dr : DetectionResult)
    (reqId prompt reqId' output : List Char) :
    ((preFilterAnalyze preOpts outcome dr reqId prompt).status = PreFilterStatus.PASS →
      (preFilterAnalyze preOpts outcome dr reqId prompt).filteredPrompt = some prompt)
    ∧ ((postFilterAnalyze postOpts outcome dr reqId' output).status = PostFilterStatus.PASS →
      (postFilterAnalyze postOpts outcome dr reqId' output).finalOutput = output)
    ∧ ((preFilterAnalyze preOpts outcome dr reqId prompt).status = PreFilterStatus.BLOCK →
      (preFilterAnalyze preOpts outcome dr reqId prompt).filteredPrompt = none
      ∧ ((preFilterAnalyze preOpts outcome dr reqId prompt).safeResponse
            = some preOpts.safeResponseMessage
        ∨ (preFilterAnalyze preOpts outcome dr reqId prompt).safeResponse
            = some (str "Terjadi kesalahan dalam memproses permintaan Anda. Silakan coba lagi.")))
    ∧ ((postFilterAnalyze postOpts outcome dr reqId' output).status = PostFilterStatus.FILTER →
      (postFilterAnalyze postOpts outcome dr reqId' output).finalOutput ∈
        [SAFE_RESPONSE_MALWARE, SAFE_RESPONSE_ILLEGAL, SAFE_RESPONSE_SARA,
         SAFE_RESPONSE_HOAX, postOpts.safeResponseDefault,
         str "Terjadi kesalahan dalam memproses respons. Silakan coba lagi."])
    ∧ ((preFilterAnalyze preOpts PipeOutcome.completed dr reqId prompt).matchedRules
        = dr.matchList)
    ∧ ((postFilterAnalyze postOpts PipeOutcome.completed dr reqId' output).matchedRules
        = dr.matchList) := by
  have hsafe : ∀ categories, getSafeResponse postOpts categories ∈
      [SAFE_RESPONSE_MALWARE, SAFE_RESPONSE_ILLEGAL, SAFE_RESPONSE_SARA,
       SAFE_RESPONSE_HOAX, postOpts.safeResponseDefault,
       str "Terjadi kesalahan dalam memproses respons. Silakan coba lagi."] := by
    intro categories
    unfold getSafeResponse
    split_ifs <;> simp
  refine ⟨?_, ?_, ?_, ?_, ?_, ?_⟩
  · cases outcome <;>
      simp only [preFilterAnalyze, buildResponsePre, timeoutPipelineResultPre] <;>
      first
        | (split_ifs <;> simp_all)
        | simp_all
  · cases outcome <;>
      simp only [postFilterAnalyze, buildResponsePost, timeoutPipelineResultPost] <;>
      first
        | (split_ifs <;> simp_all)
        | simp_all
  · cases outcome <;>
      simp only [preFilterAnalyze, buildResponsePre, timeoutPipelineResultPre] <;>
      first
        | (split_ifs <;> simp_all)
        | simp_all
  · cases outcome <;>
      simp only [postFilterAnalyze, buildResponsePost, timeoutPipelineResultPost] <;>
      first
        | (split_ifs <;> intro h <;> simp_all [hsafe])
        | (intro h; simp_all [hsafe])
  · simp only [preFilterAnalyze, buildResponsePre, runAnalysisPipelinePre]
    split_ifs <;> rfl
  · simp only [postFilterAnalyze, buildResponsePost, runAnalysisPipelinePost]
    split_ifs <;> rfl

/-- A detection result for perfectly safe content. -/
def safePassResult : DetectionResult :=
  { isHarmful := false
    matchList := []
    recommendedAction := RecommendedAction.PASS
    confidence := 1
    processingTimeMs := 0 }

/-- Witness for C4 (amended): a passing pre-filter call echoes the original
prompt unchanged. -/
theorem response_payload_witness :
    (preFilterAnalyze DEFAULT_PRE_OPTIONS PipeOutcome.completed safePassResult
        (str "req-w") (str "hello world")).status = PreFilterStatus.PASS
    ∧ (preFilterAnalyze DEFAULT_PRE_OPTIONS PipeOutcome.completed safePassResult
        (str "req-w") (str "hello world")).filteredPrompt = some (str "hello world") := by
  have hstatus : (preFilterAnalyze DEFAULT_PRE_OPTIONS PipeOutcome.completed safePassResult
      (str "req-w") (str "hello world")).status = PreFilterStatus.PASS := by
    norm_num [preFilterAnalyze, buildResponsePre, runAnalysisPipelinePre,
      safePassResult, DEFAULT_PRE_OPTIONS]
  exact ⟨hstatus,
    (response_payload_amended DEFAULT_PRE_OPTIONS DEFAULT_POST_OPTIONS
      PipeOutcome.completed safePassResult (str "req-w") (str "hello world")
      (str "x") (str "y")).1 hstatus⟩

/-- A BLOCK keyword rule whose name identifies it. -/
def badwordRule : DetectionRule :=
  { id := str "kw1"
    name := str "Badword Rule"
    type := str "KEYWORD"
    pattern := str "badword"
    action := RuleAction.BLOCK
    severity := str "HIGH"
    language := Language.BOTH
    enabled := true
    version := 1 }

/-- C4 counterexample: a filtered post-filter response carries, in its
`matchedRules` payload field, a match exposing the rule's name and the
matched substring of the analyzed text — contradicting the claim that a
blocked response contains no rule names and no matched substrings. -/
theorem response_payload_counterexample :
    (postFilterAnalyze DEFAULT_POST_OPTIONS PipeOutcome.completed
        (analyzeOutput [badwordRule] DEFAULT_CONFIG (str "xx badword yy")
          { language := CtxLanguage.EN, strictMode := false })
        (str "req1") (str "xx badword yy")).status = PostFilterStatus.FILTER
    ∧ ∃ m ∈ (postFilterAnalyze DEFAULT_POST_OPTIONS PipeOutcome.completed
        (analyzeOutput [badwordRule] DEFAULT_CONFIG (str "xx badword yy")
          { language := CtxLanguage.EN, strictMode := false })
        (str "req1") (str "xx badword yy")).matchedRules,
        m.ruleName = str "Badword Rule"
        ∧ m.matchedText = str "badword"
        ∧ jsIncludes (str "xx badword yy") m.matchedText = true :=
  ⟨by decide, by decide⟩

end Tameng
